import Mathlib

/-!
Formal model of the clawdiscord provisioning engine.

The definitions below are shallow embeddings of the TypeScript sources:
- `packages/bot/src/services/setup.ts` (namespace `Bot`): the bot-side
  `SetupService` with `execute`, `buildOverwrites`, `getStaffRoleNames`,
  `resolvePermissions` and the permission-bit table `P`.
- `packages/cli/src/core/builder.ts` (namespace `Cli`): the CLI-side
  `ServerBuilder` with `preflight`, `build`, `createRoles`,
  `createCategories`, `createChannel`, `sendEmbeds`, `applySettings`,
  `buildPermissionOverwrites`, `isFatalError` and `PermissionFlags`.
- `packages/cli/src/core/discord.ts` (namespace `Cli`): the rate-limited
  `DiscordClient.request` retry wrapper and `DiscordApiError`.

JavaScript BigInt permission masks are modelled as `Nat` (BigInt is
arbitrary precision, so no wrap-around is involved).  The remote API is
modelled as a deterministic oracle mapping each request to its response;
real time (setTimeout sleeps) is modelled as recorded sleep durations
where a claim needs them, and ignored otherwise.
-/

/-! ## Template data model
Shared by bot (`setup.ts` interface declarations) and CLI
(`core/template.ts` interface declarations); the two files declare
identical shapes for everything the engine reads. -/

structure EveryoneRule where
  send_messages : Option Bool := none
  view_channel : Option Bool := none
  deriving DecidableEq, Repr

structure ChannelPermissions where
  everyone : Option EveryoneRule := none
  staff_only : Option Bool := none
  role_locked : Option String := none
  deriving DecidableEq, Repr

structure EmbedField where
  name : String
  value : String
  inline : Option Bool := none
  deriving DecidableEq, Repr

structure ChannelEmbed where
  title : String
  description : Option String := none
  color : Option String := none
  fields : Option (List EmbedField) := none
  footer : Option String := none
  thumbnail : Option String := none
  image : Option String := none
  deriving DecidableEq, Repr

inductive ChannelKind where
  | text
  | voice
  | stage
  | forum
  | announcement
  deriving DecidableEq, Repr

structure ChannelConfig where
  name : String
  type : ChannelKind
  topic : Option String := none
  slowmode : Option Nat := none
  nsfw : Option Bool := none
  user_limit : Option Nat := none
  bitrate : Option Nat := none
  permissions : Option ChannelPermissions := none
  embed : Option ChannelEmbed := none
  tags : Option (List String) := none
  deriving DecidableEq, Repr

structure CategoryConfig where
  name : String
  channels : List ChannelConfig
  deriving DecidableEq, Repr

structure RoleConfig where
  name : String
  color : String
  hoist : Bool
  mentionable : Option Bool := none
  position : Int
  permissions : Option (List String) := none
  permissions_deny : Option (List String) := none
  deriving DecidableEq, Repr

structure GuildSettings where
  verification_level : Option Nat := none
  default_notifications : Option Nat := none
  explicit_content_filter : Option Nat := none
  deriving DecidableEq, Repr

structure ServerTemplate where
  id : String
  name : String
  description : String
  categories : List CategoryConfig
  roles : List RoleConfig
  settings : Option GuildSettings := none
  deriving DecidableEq, Repr

/-- JS truthiness of an optional boolean (`if (x)` where `x?: boolean`):
`undefined` and `false` are falsy. -/
def truthyBool : Option Bool → Bool
  | some true => true
  | _ => false

/-- JS truthiness of an optional string (`if (x)` where `x?: string`):
`undefined` and the empty string are falsy. -/
def truthyStr : Option String → Bool
  | some s => s != ""
  | none => false

/-- A permission-overwrite entry as pushed by the builders:
`\x7b id, type: 0, allow?/deny?: bits.toString() \x7d`.  The decimal
stringification of the bitmask is left implicit; we keep the numeric
mask. -/
structure Overwrite where
  id : String
  type : Nat
  allow : Option Nat := none
  deny : Option Nat := none
  deriving DecidableEq, Repr

/-- The run-scoped role-name-to-id map (`Map<string, string>`), as an
association list where an insert conses to the front, so `lookup`
returns the most recent binding, matching `Map.set`/`Map.get`. -/
abbrev RoleMap := List (String × String)

/-! ## Bot service (`packages/bot/src/services/setup.ts`) -/

namespace Bot

/-- `const P = \x7b ... \x7d` permission bits in setup.ts. -/
def P.VIEW_CHANNEL : Nat := 1 <<< 10

def P.SEND_MESSAGES : Nat := 1 <<< 11

def P.MANAGE_CHANNELS : Nat := 1 <<< 4

def P.MANAGE_GUILD : Nat := 1 <<< 5

def P.MANAGE_ROLES : Nat := 1 <<< 28

def P.MANAGE_MESSAGES : Nat := 1 <<< 13

def P.KICK_MEMBERS : Nat := 1 <<< 1

def P.BAN_MEMBERS : Nat := 1 <<< 2

def P.ADMINISTRATOR : Nat := 1 <<< 3

def P.MUTE_MEMBERS : Nat := 1 <<< 22

def P.ADD_REACTIONS : Nat := 1 <<< 6

def P.SPEAK : Nat := 1 <<< 21

def P.CONNECT : Nat := 1 <<< 20

def P.MANAGE_THREADS : Nat := 1 <<< 34

def P.CREATE_PUBLIC_THREADS : Nat := 1 <<< 35

def P.SEND_MESSAGES_IN_THREADS : Nat := 1 <<< 38

/-- `const PermMap: Record<string, bigint> = P` — name-to-bit lookup over
the table's own keys. -/
def PermMap : String → Option Nat
  | "VIEW_CHANNEL" => some P.VIEW_CHANNEL
  | "SEND_MESSAGES" => some P.SEND_MESSAGES
  | "MANAGE_CHANNELS" => some P.MANAGE_CHANNELS
  | "MANAGE_GUILD" => some P.MANAGE_GUILD
  | "MANAGE_ROLES" => some P.MANAGE_ROLES
  | "MANAGE_MESSAGES" => some P.MANAGE_MESSAGES
  | "KICK_MEMBERS" => some P.KICK_MEMBERS
  | "BAN_MEMBERS" => some P.BAN_MEMBERS
  | "ADMINISTRATOR" => some P.ADMINISTRATOR
  | "MUTE_MEMBERS" => some P.MUTE_MEMBERS
  | "ADD_REACTIONS" => some P.ADD_REACTIONS
  | "SPEAK" => some P.SPEAK
  | "CONNECT" => some P.CONNECT
  | "MANAGE_THREADS" => some P.MANAGE_THREADS
  | "CREATE_PUBLIC_THREADS" => some P.CREATE_PUBLIC_THREADS
  | "SEND_MESSAGES_IN_THREADS" => some P.SEND_MESSAGES_IN_THREADS
  | _ => none

/-- `resolvePermissions(perms)`: `perms.reduce((acc, p) => acc | (PermMap[p] || 0n), 0n)`.
Every table value is nonzero, so `PermMap[p] || 0n` is exactly
`(PermMap p).getD 0`. -/
def resolvePermissions (perms : List String) : Nat :=
  perms.foldl (fun acc p => acc ||| (PermMap p).getD 0) 0

/-- `getStaffRoleNames()`: roles with `position >= 12` or whose permission
list includes ADMINISTRATOR or MANAGE_GUILD (an absent list contributes
nothing, as `undefined?.includes(...)` is falsy). -/
def staffRoleNames (roles : List RoleConfig) : List String :=
  (roles.filter (fun r =>
      decide (12 ≤ r.position)
        || (r.permissions.getD []).contains "ADMINISTRATOR"
        || (r.permissions.getD []).contains "MANAGE_GUILD")).map (·.name)

/-- `buildOverwrites(channel)` from setup.ts.  The four rules are
evaluated independently, in source order; `roleMap.get` misses are
silently skipped (`if (roleId)`). -/
def buildOverwrites (roles : List RoleConfig) (roleMap : RoleMap)
    (guildId : String) (channel : ChannelConfig) : List Overwrite :=
  let perm := channel.permissions
  let ev := perm.bind (·.everyone)
  (if (ev.bind (·.send_messages)) == some false then
    [{ id := guildId, type := 0, deny := some P.SEND_MESSAGES }]
  else [])
  ++ (if (ev.bind (·.view_channel)) == some false then
    [{ id := guildId, type := 0, deny := some P.VIEW_CHANNEL }]
  else [])
  ++ (if truthyBool (perm.bind (·.staff_only)) then
    { id := guildId, type := 0, deny := some P.VIEW_CHANNEL } ::
      (staffRoleNames roles).filterMap (fun n =>
        (roleMap.lookup n).map (fun rid =>
          { id := rid, type := 0, allow := some (P.VIEW_CHANNEL ||| P.SEND_MESSAGES) }))
  else [])
  ++ (if truthyStr (perm.bind (·.role_locked)) then
    { id := guildId, type := 0, deny := some P.VIEW_CHANNEL } ::
      ((match (perm.bind (·.role_locked)).bind (fun r => roleMap.lookup r) with
        | some rid => [{ id := rid, type := 0, allow := some P.VIEW_CHANNEL }]
        | none => [])
       ++ (staffRoleNames roles).filterMap (fun n =>
            (roleMap.lookup n).map (fun sid =>
              { id := sid, type := 0, allow := some P.VIEW_CHANNEL })))
  else [])

end Bot

/-! ## CLI builder (`packages/cli/src/core/builder.ts`) -/

namespace Cli

/-- `const PermissionFlags = \x7b ... \x7d` in builder.ts, as a
name-to-bit lookup (`PermissionFlags[p as keyof typeof PermissionFlags]`). -/
def PermissionFlags : String → Option Nat
  | "ADMINISTRATOR" => some (1 <<< 3)
  | "MANAGE_CHANNELS" => some (1 <<< 4)
  | "MANAGE_GUILD" => some (1 <<< 5)
  | "ADD_REACTIONS" => some (1 <<< 6)
  | "VIEW_CHANNEL" => some (1 <<< 10)
  | "SEND_MESSAGES" => some (1 <<< 11)
  | "MANAGE_MESSAGES" => some (1 <<< 13)
  | "EMBED_LINKS" => some (1 <<< 14)
  | "ATTACH_FILES" => some (1 <<< 15)
  | "MENTION_EVERYONE" => some (1 <<< 17)
  | "USE_EXTERNAL_EMOJIS" => some (1 <<< 18)
  | "CONNECT" => some (1 <<< 20)
  | "SPEAK" => some (1 <<< 21)
  | "MUTE_MEMBERS" => some (1 <<< 22)
  | "MANAGE_ROLES" => some (1 <<< 28)
  | "MANAGE_THREADS" => some (1 <<< 34)
  | "CREATE_PUBLIC_THREADS" => some (1 <<< 35)
  | "SEND_MESSAGES_IN_THREADS" => some (1 <<< 38)
  | "KICK_MEMBERS" => some (1 <<< 1)
  | "BAN_MEMBERS" => some (1 <<< 2)
  | _ => none

def VIEW_CHANNEL : Nat := 1 <<< 10

def SEND_MESSAGES : Nat := 1 <<< 11

/-- `resolvePermissions(perms)` in builder.ts:
`perms.reduce((acc, p) => \x7b const flag = PermissionFlags[p]; return flag ? acc | flag : acc; \x7d, 0n)`.
Every flag is nonzero, hence always truthy when found. -/
def resolvePermissions (perms : List String) : Nat :=
  perms.foldl (fun acc p =>
    match PermissionFlags p with
    | some flag => acc ||| flag
    | none => acc) 0

/-- `getStaffRoleNames()` in builder.ts — same predicate as the bot
service: `position >= 12` or ADMINISTRATOR/MANAGE_GUILD in the
permission list. -/
def staffRoleNames (roles : List RoleConfig) : List String :=
  (roles.filter (fun r =>
      decide (12 ≤ r.position)
        || (r.permissions.getD []).contains "ADMINISTRATOR"
        || (r.permissions.getD []).contains "MANAGE_GUILD")).map (·.name)

/-- `buildPermissionOverwrites(channel)` from builder.ts — textually the
same rule set as the bot's `buildOverwrites`. -/
def buildPermissionOverwrites (roles : List RoleConfig) (roleMap : RoleMap)
    (guildId : String) (channel : ChannelConfig) : List Overwrite :=
  let perm := channel.permissions
  let ev := perm.bind (·.everyone)
  (if (ev.bind (·.send_messages)) == some false then
    [{ id := guildId, type := 0, deny := some SEND_MESSAGES }]
  else [])
  ++ (if (ev.bind (·.view_channel)) == some false then
    [{ id := guildId, type := 0, deny := some VIEW_CHANNEL }]
  else [])
  ++ (if truthyBool (perm.bind (·.staff_only)) then
    { id := guildId, type := 0, deny := some VIEW_CHANNEL } ::
      (staffRoleNames roles).filterMap (fun n =>
        (roleMap.lookup n).map (fun rid =>
          { id := rid, type := 0, allow := some (VIEW_CHANNEL ||| SEND_MESSAGES) }))
  else [])
  ++ (if truthyStr (perm.bind (·.role_locked)) then
    { id := guildId, type := 0, deny := some VIEW_CHANNEL } ::
      ((match (perm.bind (·.role_locked)).bind (fun r => roleMap.lookup r) with
        | some rid => [{ id := rid, type := 0, allow := some VIEW_CHANNEL }]
        | none => [])
       ++ (staffRoleNames roles).filterMap (fun n =>
            (roleMap.lookup n).map (fun sid =>
              { id := sid, type := 0, allow := some VIEW_CHANNEL })))
  else [])

end Cli

/-! ## Shared facts about the two builders -/

/-- The CLI and the bot compute the same staff roster (the two filters
are textually identical). -/
theorem staffRoleNames_eq : Cli.staffRoleNames = Bot.staffRoleNames := rfl

/-- Sample roster used to instantiate hypotheses of the builder
theorems on concrete inputs. -/
def sampleRoles : List RoleConfig :=
  [{ name := "Admin", color := "#ff0000", hoist := true, mentionable := some true,
     position := 12, permissions := some ["ADMINISTRATOR"] },
   { name := "Member", color := "#00ff00", hoist := false, position := 0 }]

def sampleMap : RoleMap := [("Admin", "100"), ("Member", "101")]

def sampleLockedChannel : ChannelConfig :=
  { name := "vault", type := .text,
    permissions := some { role_locked := some "Admin" } }

def sampleStaffChannel : ChannelConfig :=
  { name := "mod-chat", type := .text,
    permissions := some { staff_only := some true } }

/-- C1: a `role_locked = R` rule yields, in order: deny view-channel to
everyone; then, exactly when R is found in the role map, allow
view-channel to R's resolved id; then allow view-channel to every staff
role found in the role map.  A map miss for R is silently dropped (the
builder records no error anywhere).  R ranges over role names, which in
the JS truthiness test `if (channel.permissions?.role_locked)` means a
nonempty string.  Proved for both the bot and the CLI builder. -/
theorem role_locked_overwrite_order (roles : List RoleConfig) (roleMap : RoleMap)
    (gid R : String) (hR : R ≠ "") (ch : ChannelConfig)
    (hch : ch.permissions = some { everyone := none, staff_only := none, role_locked := some R }) :
    Bot.buildOverwrites roles roleMap gid ch =
      { id := gid, type := 0, deny := some Bot.P.VIEW_CHANNEL } ::
        ((match roleMap.lookup R with
          | some rid => [{ id := rid, type := 0, allow := some Bot.P.VIEW_CHANNEL }]
          | none => [])
         ++ (Bot.staffRoleNames roles).filterMap (fun n =>
              (roleMap.lookup n).map (fun sid =>
                ({ id := sid, type := 0, allow := some Bot.P.VIEW_CHANNEL } : Overwrite))))
    ∧ Cli.buildPermissionOverwrites roles roleMap gid ch =
      { id := gid, type := 0, deny := some Cli.VIEW_CHANNEL } ::
        ((match roleMap.lookup R with
          | some rid => [{ id := rid, type := 0, allow := some Cli.VIEW_CHANNEL }]
          | none => [])
         ++ (Cli.staffRoleNames roles).filterMap (fun n =>
              (roleMap.lookup n).map (fun sid =>
                ({ id := sid, type := 0, allow := some Cli.VIEW_CHANNEL } : Overwrite)))) := by
  constructor
  · simp [Bot.buildOverwrites, hch, truthyBool, truthyStr, bne_iff_ne, hR]
  · simp [Cli.buildPermissionOverwrites, hch, truthyBool, truthyStr, bne_iff_ne, hR]

theorem role_locked_overwrite_order_witness :
    Bot.buildOverwrites sampleRoles sampleMap "g" sampleLockedChannel =
      { id := "g", type := 0, deny := some Bot.P.VIEW_CHANNEL } ::
        ((match sampleMap.lookup "Admin" with
          | some rid => [{ id := rid, type := 0, allow := some Bot.P.VIEW_CHANNEL }]
          | none => [])
         ++ (Bot.staffRoleNames sampleRoles).filterMap (fun n =>
              (sampleMap.lookup n).map (fun sid =>
                ({ id := sid, type := 0, allow := some Bot.P.VIEW_CHANNEL } : Overwrite))))
    ∧ Cli.buildPermissionOverwrites sampleRoles sampleMap "g" sampleLockedChannel =
      { id := "g", type := 0, deny := some Cli.VIEW_CHANNEL } ::
        ((match sampleMap.lookup "Admin" with
          | some rid => [{ id := rid, type := 0, allow := some Cli.VIEW_CHANNEL }]
          | none => [])
         ++ (Cli.staffRoleNames sampleRoles).filterMap (fun n =>
              (sampleMap.lookup n).map (fun sid =>
                ({ id := sid, type := 0, allow := some Cli.VIEW_CHANNEL } : Overwrite)))) :=
  role_locked_overwrite_order sampleRoles sampleMap "g" "Admin" (by decide)
    sampleLockedChannel rfl

/-- C2: a `staff_only = true` rule yields the deny-view-channel entry
for everyone followed by an allow of (view-channel OR send-messages)
for exactly the roster roles satisfying the staff predicate
(`position >= 12`, or ADMINISTRATOR or MANAGE_GUILD in the permission
list) that are present in the role map.  Proved for both builders. -/
theorem staff_only_overwrite_shape (roles : List RoleConfig) (roleMap : RoleMap)
    (gid : String) (ch : ChannelConfig)
    (hch : ch.permissions = some { everyone := none, staff_only := some true, role_locked := none }) :
    Bot.buildOverwrites roles roleMap gid ch =
      { id := gid, type := 0, deny := some Bot.P.VIEW_CHANNEL } ::
        (roles.filter (fun r =>
            decide (12 ≤ r.position)
              || (r.permissions.getD []).contains "ADMINISTRATOR"
              || (r.permissions.getD []).contains "MANAGE_GUILD")).filterMap (fun r =>
          (roleMap.lookup r.name).map (fun rid =>
            ({ id := rid, type := 0,
               allow := some (Bot.P.VIEW_CHANNEL ||| Bot.P.SEND_MESSAGES) } : Overwrite)))
    ∧ Cli.buildPermissionOverwrites roles roleMap gid ch =
      { id := gid, type := 0, deny := some Cli.VIEW_CHANNEL } ::
        (roles.filter (fun r =>
            decide (12 ≤ r.position)
              || (r.permissions.getD []).contains "ADMINISTRATOR"
              || (r.permissions.getD []).contains "MANAGE_GUILD")).filterMap (fun r =>
          (roleMap.lookup r.name).map (fun rid =>
            ({ id := rid, type := 0,
               allow := some (Cli.VIEW_CHANNEL ||| Cli.SEND_MESSAGES) } : Overwrite))) := by
  constructor
  · simp [Bot.buildOverwrites, Bot.staffRoleNames, hch, truthyBool, truthyStr,
      List.filterMap_map, Function.comp_def]
  · simp [Cli.buildPermissionOverwrites, Cli.staffRoleNames, hch, truthyBool, truthyStr,
      List.filterMap_map, Function.comp_def]

theorem staff_only_overwrite_shape_witness :
    Bot.buildOverwrites sampleRoles sampleMap "g" sampleStaffChannel =
      { id := "g", type := 0, deny := some Bot.P.VIEW_CHANNEL } ::
        (sampleRoles.filter (fun r =>
            decide (12 ≤ r.position)
              || (r.permissions.getD []).contains "ADMINISTRATOR"
              || (r.permissions.getD []).contains "MANAGE_GUILD")).filterMap (fun r =>
          (sampleMap.lookup r.name).map (fun rid =>
            ({ id := rid, type := 0,
               allow := some (Bot.P.VIEW_CHANNEL ||| Bot.P.SEND_MESSAGES) } : Overwrite)))
    ∧ Cli.buildPermissionOverwrites sampleRoles sampleMap "g" sampleStaffChannel =
      { id := "g", type := 0, deny := some Cli.VIEW_CHANNEL } ::
        (sampleRoles.filter (fun r =>
            decide (12 ≤ r.position)
              || (r.permissions.getD []).contains "ADMINISTRATOR"
              || (r.permissions.getD []).contains "MANAGE_GUILD")).filterMap (fun r =>
          (sampleMap.lookup r.name).map (fun rid =>
            ({ id := rid, type := 0,
               allow := some (Cli.VIEW_CHANNEL ||| Cli.SEND_MESSAGES) } : Overwrite))) :=
  staff_only_overwrite_shape sampleRoles sampleMap "g" sampleStaffChannel rfl

/-- C10: when the role named by `role_locked` is itself staff and is in
the role map, its identifier receives one allow entry from the
role-locked rule and a second, identical allow entry from the staff
loop — neither builder deduplicates.  Stated as: the entry
`\x7b id := rid, allow := view \x7d` occurs at least twice in the output. -/
theorem role_locked_staff_duplication (roles : List RoleConfig) (roleMap : RoleMap)
    (gid R rid : String) (hR : R ≠ "") (ch : ChannelConfig)
    (hch : ch.permissions = some { everyone := none, staff_only := none, role_locked := some R })
    (hstaff : R ∈ Bot.staffRoleNames roles)
    (hmap : roleMap.lookup R = some rid) :
    2 ≤ (Bot.buildOverwrites roles roleMap gid ch).count
          { id := rid, type := 0, allow := some Bot.P.VIEW_CHANNEL }
    ∧ 2 ≤ (Cli.buildPermissionOverwrites roles roleMap gid ch).count
          { id := rid, type := 0, allow := some Cli.VIEW_CHANNEL } := by
  have hmem : ({ id := rid, type := 0, allow := some Bot.P.VIEW_CHANNEL } : Overwrite) ∈
      (Bot.staffRoleNames roles).filterMap (fun n =>
        (roleMap.lookup n).map (fun sid =>
          ({ id := sid, type := 0, allow := some Bot.P.VIEW_CHANNEL } : Overwrite))) :=
    List.mem_filterMap.mpr ⟨R, hstaff, by rw [hmap]; rfl⟩
  have hcount : 0 < ((Bot.staffRoleNames roles).filterMap (fun n =>
        (roleMap.lookup n).map (fun sid =>
          ({ id := sid, type := 0, allow := some Bot.P.VIEW_CHANNEL } : Overwrite)))).count
          { id := rid, type := 0, allow := some Bot.P.VIEW_CHANNEL } :=
    List.count_pos_iff.mpr hmem
  have hmem' : ({ id := rid, type := 0, allow := some Cli.VIEW_CHANNEL } : Overwrite) ∈
      (Cli.staffRoleNames roles).filterMap (fun n =>
        (roleMap.lookup n).map (fun sid =>
          ({ id := sid, type := 0, allow := some Cli.VIEW_CHANNEL } : Overwrite))) :=
    List.mem_filterMap.mpr ⟨R, by rw [staffRoleNames_eq]; exact hstaff, by rw [hmap]; rfl⟩
  have hcount' : 0 < ((Cli.staffRoleNames roles).filterMap (fun n =>
        (roleMap.lookup n).map (fun sid =>
          ({ id := sid, type := 0, allow := some Cli.VIEW_CHANNEL } : Overwrite)))).count
          { id := rid, type := 0, allow := some Cli.VIEW_CHANNEL } :=
    List.count_pos_iff.mpr hmem'
  have hbot : Bot.buildOverwrites roles roleMap gid ch =
      { id := gid, type := 0, deny := some Bot.P.VIEW_CHANNEL } ::
        ([{ id := rid, type := 0, allow := some Bot.P.VIEW_CHANNEL }]
         ++ (Bot.staffRoleNames roles).filterMap (fun n =>
              (roleMap.lookup n).map (fun sid =>
                ({ id := sid, type := 0, allow := some Bot.P.VIEW_CHANNEL } : Overwrite)))) := by
    simp [Bot.buildOverwrites, hch, truthyBool, truthyStr, bne_iff_ne, hR, hmap]
  have hcli : Cli.buildPermissionOverwrites roles roleMap gid ch =
      { id := gid, type := 0, deny := some Cli.VIEW_CHANNEL } ::
        ([{ id := rid, type := 0, allow := some Cli.VIEW_CHANNEL }]
         ++ (Cli.staffRoleNames roles).filterMap (fun n =>
              (roleMap.lookup n).map (fun sid =>
                ({ id := sid, type := 0, allow := some Cli.VIEW_CHANNEL } : Overwrite)))) := by
    simp [Cli.buildPermissionOverwrites, hch, truthyBool, truthyStr, bne_iff_ne, hR, hmap]
  constructor
  · rw [hbot]
    refine le_trans ?_ ((List.sublist_cons_self _ _).count_le _)
    rw [List.count_append]
    simp only [List.count_singleton, beq_self_eq_true, if_true]
    omega
  · rw [hcli]
    refine le_trans ?_ ((List.sublist_cons_self _ _).count_le _)
    rw [List.count_append]
    simp only [List.count_singleton, beq_self_eq_true, if_true]
    omega

theorem role_locked_staff_duplication_witness :
    2 ≤ (Bot.buildOverwrites sampleRoles sampleMap "g" sampleLockedChannel).count
          { id := "100", type := 0, allow := some Bot.P.VIEW_CHANNEL }
    ∧ 2 ≤ (Cli.buildPermissionOverwrites sampleRoles sampleMap "g" sampleLockedChannel).count
          { id := "100", type := 0, allow := some Cli.VIEW_CHANNEL } :=
  role_locked_staff_duplication sampleRoles sampleMap "g" "Admin" "100" (by decide)
    sampleLockedChannel rfl (by decide) (by decide)

/-! ## Permission bitmask resolver (C7) -/

/-- Both `resolvePermissions` bodies are a left fold of bitwise OR over a
name-to-bit table, with misses contributing 0. -/
def resolveWith (table : String → Option Nat) (perms : List String) : Nat :=
  perms.foldl (fun acc p => acc ||| (table p).getD 0) 0

theorem resolveWith_rightComm (table : String → Option Nat) :
    RightCommutative (fun (acc : Nat) p => acc ||| (table p).getD 0) :=
  ⟨fun b a₁ a₂ => by
    rw [Nat.lor_assoc, Nat.lor_assoc, Nat.lor_comm ((table a₁).getD 0)]⟩

theorem cli_resolvePermissions_eq (l : List String) :
    Cli.resolvePermissions l = resolveWith Cli.PermissionFlags l := by
  have hfun : (fun (acc : Nat) p =>
      match Cli.PermissionFlags p with
      | some flag => acc ||| flag
      | none => acc) = fun (acc : Nat) p => acc ||| (Cli.PermissionFlags p).getD 0 := by
    funext acc p
    cases Cli.PermissionFlags p <;> simp
  simp only [Cli.resolvePermissions, resolveWith, hfun]

theorem bot_resolvePermissions_eq (l : List String) :
    Bot.resolvePermissions l = resolveWith Bot.PermMap l := rfl

theorem resolveWith_perm (table : String → Option Nat) {l l' : List String}
    (h : l.Perm l') : resolveWith table l = resolveWith table l' := by
  haveI := resolveWith_rightComm table
  exact h.foldl_eq 0

theorem resolveWith_foldl_dup (table : String → Option Nat) :
    ∀ (l : List String) (acc : Nat) (a : String), a ∈ l →
      l.foldl (fun acc p => acc ||| (table p).getD 0) (acc ||| (table a).getD 0) =
        l.foldl (fun acc p => acc ||| (table p).getD 0) acc := by
  intro l
  induction l with
  | nil => intro acc a ha; cases ha
  | cons b m ih =>
    intro acc a ha
    rcases List.mem_cons.mp ha with hab | ham
    · subst hab
      simp only [List.foldl_cons, Nat.lor_assoc, Nat.or_self]
    · simp only [List.foldl_cons]
      rw [(resolveWith_rightComm table).right_comm]
      exact ih _ a ham

theorem resolveWith_dup (table : String → Option Nat) (a : String) (l : List String)
    (h : a ∈ l) : resolveWith table (a :: l) = resolveWith table l := by
  simp only [resolveWith, List.foldl_cons]
  exact resolveWith_foldl_dup table l _ a h

theorem resolveWith_or_known (table : String → Option Nat) :
    ∀ (l : List String) (acc : Nat),
      l.foldl (fun acc p => acc ||| (table p).getD 0) acc =
        (l.filterMap table).foldl (· ||| ·) acc := by
  intro l
  induction l with
  | nil => intro acc; rfl
  | cons p m ih =>
    intro acc
    simp only [List.foldl_cons, List.filterMap_cons]
    cases h : table p with
    | none => simp only [Option.getD_none, Nat.or_zero]; exact ih acc
    | some v => simp only [Option.getD_some, List.foldl_cons]; exact ih (acc ||| v)

/-- C7: both `resolvePermissions` functions return the bitwise OR of the
bit values of the known names; unknown names are ignored, not rejected;
and the result is invariant under permutation of the input and under
duplication of any element. -/
theorem resolvePermissions_properties :
    (∀ l, Cli.resolvePermissions l = (l.filterMap Cli.PermissionFlags).foldl (· ||| ·) 0)
    ∧ (∀ p l, Cli.PermissionFlags p = none →
        Cli.resolvePermissions (p :: l) = Cli.resolvePermissions l)
    ∧ (∀ l l', l.Perm l' → Cli.resolvePermissions l = Cli.resolvePermissions l')
    ∧ (∀ a l, a ∈ l → Cli.resolvePermissions (a :: l) = Cli.resolvePermissions l)
    ∧ (∀ l, Bot.resolvePermissions l = (l.filterMap Bot.PermMap).foldl (· ||| ·) 0)
    ∧ (∀ p l, Bot.PermMap p = none →
        Bot.resolvePermissions (p :: l) = Bot.resolvePermissions l)
    ∧ (∀ l l', l.Perm l' → Bot.resolvePermissions l = Bot.resolvePermissions l')
    ∧ (∀ a l, a ∈ l → Bot.resolvePermissions (a :: l) = Bot.resolvePermissions l) := by
  refine ⟨fun l => ?_, fun p l hp => ?_, fun l l' h => ?_, fun a l h => ?_,
    fun l => ?_, fun p l hp => ?_, fun l l' h => ?_, fun a l h => ?_⟩
  · rw [cli_resolvePermissions_eq, resolveWith, resolveWith_or_known]
  · rw [cli_resolvePermissions_eq, cli_resolvePermissions_eq, resolveWith,
      List.foldl_cons, hp]
    simp only [Option.getD_none, Nat.or_zero]
    rfl
  · rw [cli_resolvePermissions_eq, cli_resolvePermissions_eq]
    exact resolveWith_perm _ h
  · rw [cli_resolvePermissions_eq, cli_resolvePermissions_eq]
    exact resolveWith_dup _ a l h
  · rw [bot_resolvePermissions_eq, resolveWith, resolveWith_or_known]
  · rw [bot_resolvePermissions_eq, bot_resolvePermissions_eq, resolveWith,
      List.foldl_cons, hp]
    simp only [Option.getD_none, Nat.or_zero]
    rfl
  · rw [bot_resolvePermissions_eq, bot_resolvePermissions_eq]
    exact resolveWith_perm _ h
  · rw [bot_resolvePermissions_eq, bot_resolvePermissions_eq]
    exact resolveWith_dup _ a l h

theorem resolvePermissions_properties_witness :
    Cli.resolvePermissions ("NOT_A_PERMISSION" :: ["VIEW_CHANNEL", "SEND_MESSAGES"]) =
      Cli.resolvePermissions ["VIEW_CHANNEL", "SEND_MESSAGES"]
    ∧ Cli.resolvePermissions ["VIEW_CHANNEL", "SEND_MESSAGES"] =
      Cli.resolvePermissions ["SEND_MESSAGES", "VIEW_CHANNEL"]
    ∧ Cli.resolvePermissions ("SEND_MESSAGES" :: ["VIEW_CHANNEL", "SEND_MESSAGES"]) =
      Cli.resolvePermissions ["VIEW_CHANNEL", "SEND_MESSAGES"]
    ∧ Bot.resolvePermissions ("SEND_MESSAGES" :: ["VIEW_CHANNEL", "SEND_MESSAGES"]) =
      Bot.resolvePermissions ["VIEW_CHANNEL", "SEND_MESSAGES"] :=
  ⟨resolvePermissions_properties.2.1 "NOT_A_PERMISSION" _ rfl,
   resolvePermissions_properties.2.2.1 _ _ (by decide),
   resolvePermissions_properties.2.2.2.1 "SEND_MESSAGES" _ (by decide),
   resolvePermissions_properties.2.2.2.2.2.2.2 "SEND_MESSAGES" _ (by decide)⟩

/-! ## Rate-limited API client (`packages/cli/src/core/discord.ts`, C5) -/

namespace Cli

/-- `DiscordApiError` from discord.ts. -/
structure DiscordApiError where
  message : String
  status : Nat
  code : Nat
  deriving DecidableEq, Repr

/-- The value thrown by the underlying REST library, as destructured by
`request`'s catch block (`status?`, `retry_after?`, `message?`,
`rawError?.code`, `rawError?.message`). -/
structure RestError where
  status : Option Nat := none
  retry_after : Option Nat := none
  message : Option String := none
  rawCode : Option Nat := none
  rawMessage : Option String := none
  deriving DecidableEq, Repr

/-- Outcome of one underlying attempt of the wrapped call. -/
inductive Attempt where
  | ok (v : String)
  | err (e : RestError)
  deriving DecidableEq, Repr

/-- `private maxRetries = 3` in `DiscordClient`. -/
def maxRetries : Nat := 3

/-- Observable behaviour of one `request` invocation: the surfaced
outcome, the sleeps performed between attempts (milliseconds, in
order), and how many attempts were made. -/
structure RequestRun where
  result : Except DiscordApiError String
  sleeps : List Nat
  attempts : Nat
  deriving Repr

/-- `DiscordClient.request(fn, retries)` from discord.ts.  The oracle
maps the value of the `retries` counter (0 for the initial call) to the
outcome of that attempt.  On 429 below the ceiling it sleeps the
advertised `retry_after` seconds (default 1) in milliseconds and
recurses; on status >= 500 below the ceiling it backs off
exponentially (capped at 10 s) and recurses; otherwise it surfaces a
`DiscordApiError`. -/
def request (oracle : Nat → Attempt) (retries : Nat) : RequestRun :=
  match oracle retries with
  | .ok v => { result := .ok v, sleeps := [], attempts := 1 }
  | .err e =>
    let status := e.status.getD 500
    let code := e.rawCode.getD 0
    let message := e.rawMessage.getD (e.message.getD "Unknown error")
    if h : status = 429 ∧ retries < maxRetries then
      let retryAfter := (e.retry_after.getD 1) * 1000
      let rest := request oracle (retries + 1)
      { result := rest.result, sleeps := retryAfter :: rest.sleeps,
        attempts := rest.attempts + 1 }
    else if h2 : 500 ≤ status ∧ retries < maxRetries then
      let delay := min (1000 * 2 ^ retries) 10000
      let rest := request oracle (retries + 1)
      { result := rest.result, sleeps := delay :: rest.sleeps,
        attempts := rest.attempts + 1 }
    else
      { result := .error { message := message, status := status, code := code },
        sleeps := [], attempts := 1 }
termination_by maxRetries - retries
decreasing_by
  all_goals omega

end Cli

theorem request_attempts_le (oracle : Nat → Cli.Attempt) :
    ∀ (fuel retries : Nat), Cli.maxRetries - retries ≤ fuel →
      (Cli.request oracle retries).attempts ≤ Cli.maxRetries - retries + 1 := by
  intro fuel
  induction fuel with
  | zero =>
    intro retries hr
    rw [Cli.request.eq_def]
    cases oracle retries with
    | ok v => simp
    | err e =>
      simp only
      split
      · omega
      · split
        · omega
        · simp
  | succ n ih =>
    intro retries hr
    rw [Cli.request.eq_def]
    cases oracle retries with
    | ok v => simp
    | err e =>
      simp only
      split
      · have := ih (retries + 1) (by omega)
        simp only
        omega
      · split
        · have := ih (retries + 1) (by omega)
          simp only
          omega
        · simp

/-- C5: on a "too many requests" failure (status 429) advertising a
`retry_after` of t seconds, `request`'s next attempt of the same call is
preceded by a sleep of exactly t * 1000 milliseconds — so it occurs no
sooner than t seconds later — and, for any sequence of outcomes, at
most `maxRetries` + 1 = 4 attempts are made before the call's outcome is
surfaced to the caller. -/
theorem rate_limited_retry (oracle : Nat → Cli.Attempt) (e : Cli.RestError) (t : Nat)
    (h0 : oracle 0 = .err e) (hs : e.status = some 429) (hr : e.retry_after = some t) :
    (Cli.request oracle 0).sleeps.head? = some (t * 1000)
    ∧ ∀ (oracle' : Nat → Cli.Attempt),
        (Cli.request oracle' 0).attempts ≤ Cli.maxRetries + 1 := by
  constructor
  · rw [Cli.request.eq_def, h0]
    simp only [hs, hr, Option.getD_some]
    split
    · simp
    · next h =>
      exact (h (by simp [Cli.maxRetries])).elim
  · intro oracle'
    have h := request_attempts_le oracle' Cli.maxRetries 0 (Nat.le_refl _)
    omega

theorem rate_limited_retry_witness :
    (Cli.request (fun _ => .err { status := some 429, retry_after := some 2 }) 0).sleeps.head?
      = some (2 * 1000)
    ∧ ∀ (oracle' : Nat → Cli.Attempt),
        (Cli.request oracle' 0).attempts ≤ Cli.maxRetries + 1 :=
  rate_limited_retry (fun _ => .err { status := some 429, retry_after := some 2 })
    { status := some 429, retry_after := some 2 } 2 rfl rfl rfl

/-! ## Bot provisioning pipeline (`SetupService.execute`, setup.ts) -/

namespace Bot

/-- Hex digit value, 0 for non-hex characters. -/
def hexVal (c : Char) : Nat :=
  if c.isDigit then c.toNat - 48
  else if "abcdef".toList.contains c then c.toNat - 87
  else if "ABCDEF".toList.contains c then c.toNat - 55
  else 0

/-- `parseInt(color.replace('#', ''), 16)`: strip `#`, then read the
leading run of hex digits.  A string with no leading hex digit (NaN in
JS) is not distinguished and maps to 0. -/
def parseColor (color : String) : Nat :=
  ((color.replace "#" "").toList.takeWhile (fun c =>
      c.isDigit || "abcdefABCDEF".toList.contains c)).foldl
    (fun acc c => acc * 16 + hexVal c) 0

/-- `const ChannelTypes` — `ChannelTypes[ch.type] ?? 0`; the kind set is
closed, so the `?? 0` fallback is never taken. -/
def ChannelTypes : ChannelKind → Nat
  | .text => 0
  | .voice => 2
  | .announcement => 5
  | .stage => 13
  | .forum => 15

/-- The channel-creation request body assembled in Phase 2 of
`execute`: common fields plus the per-kind extras (voice/stage get
user_limit and bitrate, forum gets topic and tags, text-likes get
topic, slowmode and nsfw). -/
structure ChannelBody where
  name : String
  type : Nat
  parent_id : String
  permission_overwrites : List Overwrite
  user_limit : Option Nat := none
  bitrate : Option Nat := none
  topic : Option String := none
  available_tags : Option (List String) := none
  rate_limit_per_user : Option Nat := none
  nsfw : Option Bool := none
  deriving DecidableEq, Repr

/-- The embed payload assembled in Phase 3 (optional keys are set only
when the source value is truthy, as in the JS `if` guards). -/
structure EmbedBody where
  title : String
  color : Nat
  description : Option String := none
  fields : Option (List EmbedField) := none
  footer : Option String := none
  deriving DecidableEq, Repr

/-- A mutating remote call issued by `execute`, with its request body. -/
inductive ApiCall where
  | createRole (guildId name : String) (color : Nat) (hoist mentionable : Bool)
      (permissions : Nat)
  | createCategory (guildId name : String) (position : Nat)
  | createChannel (guildId : String) (body : ChannelBody)
  | postMessage (channelId : String) (embed : EmbedBody)
  | patchGuild (guildId : String) (settings : GuildSettings)
  deriving DecidableEq, Repr

/-- The remote API as a deterministic oracle: each request is mapped to
the created object's id or to the error message `execute` reads from
the thrown error (`(e as Error).message`).  The `apiPost` pacing and
its single 429 retry sit below this abstraction: the oracle returns
the outcome `apiPost` finally delivers to `execute`. -/
abbrev Api := ApiCall → Except String String

/-- `SetupResult` (the `stats` object is flattened into four fields;
`duration` is wall-clock time, modelled as 0). -/
structure SetupResult where
  success : Bool
  roles : Nat
  categories : Nat
  channels : Nat
  embeds : Nat
  errors : List String
  duration : Nat
  deriving Repr

/-- The orchestrator's mutable run state, plus the trace of issued
calls (`trace` is the model's observation of the outbound requests, in
order). -/
structure ExecState where
  roleMap : RoleMap := []
  roles : Nat := 0
  categories : Nat := 0
  channels : Nat := 0
  embeds : Nat := 0
  errors : List String := []
  queue : List (String × ChannelConfig) := []
  trace : List ApiCall := []

/-- Phase 1 ordering: `[...this.template.roles].sort((a, b) => a.position - b.position)`
— a stable ascending sort by position (JS `Array.prototype.sort` is
stable). -/
def sortRoles (roles : List RoleConfig) : List RoleConfig :=
  roles.mergeSort (fun a b => decide (a.position ≤ b.position))

/-- The role-creation request of Phase 1 (`role.hoist ?? false` is the
identity here since `hoist` is declared non-optional). -/
def roleCall (guildId : String) (r : RoleConfig) : ApiCall :=
  .createRole guildId r.name (parseColor r.color) r.hoist (r.mentionable.getD false)
    (resolvePermissions (r.permissions.getD []))

/-- One iteration of the Phase 1 loop: create the role; on success
record its id in the role map and bump the counter, on failure append
one error message. -/
def rolesStep (api : Api) (guildId : String) (s : ExecState) (r : RoleConfig) : ExecState :=
  let c := roleCall guildId r
  match api c with
  | .ok rid =>
    { s with
        roleMap := ((r.name, rid) :: s.roleMap),
        roles := s.roles + 1,
        trace := s.trace ++ [c] }
  | .error m =>
    { s with
        errors := s.errors ++ ["Role \"" ++ r.name ++ "\": " ++ m],
        trace := s.trace ++ [c] }

def rolesPhase (api : Api) (guildId : String) (roles : List RoleConfig)
    (s : ExecState) : ExecState :=
  (sortRoles roles).foldl (rolesStep api guildId) s

/-- The channel-creation request body of Phase 2. -/
def channelBody (roles : List RoleConfig) (roleMap : RoleMap) (guildId parentId : String)
    (ch : ChannelConfig) : ChannelBody :=
  let base : ChannelBody :=
    { name := ch.name, type := ChannelTypes ch.type, parent_id := parentId,
      permission_overwrites := buildOverwrites roles roleMap guildId ch }
  match ch.type with
  | .voice | .stage =>
    { base with
        user_limit := some (ch.user_limit.getD 0),
        bitrate := some (ch.bitrate.getD 64000) }
  | .forum =>
    { base with topic := ch.topic, available_tags := some (ch.tags.getD []) }
  | _ =>
    { base with
        topic := ch.topic,
        rate_limit_per_user := some (ch.slowmode.getD 0),
        nsfw := some (ch.nsfw.getD false) }

/-- One iteration of the inner channel loop of Phase 2: create the
channel; on success bump the counter and queue the channel for Phase 3
when it carries an embed, on failure append one error message. -/
def chanStep (api : Api) (guildId : String) (roles : List RoleConfig) (parentId : String)
    (s : ExecState) (ch : ChannelConfig) : ExecState :=
  let c := ApiCall.createChannel guildId (channelBody roles s.roleMap guildId parentId ch)
  match api c with
  | .ok cid =>
    { s with
        channels := s.channels + 1,
        trace := s.trace ++ [c],
        queue := s.queue ++ (if ch.embed.isSome then [(cid, ch)] else []) }
  | .error m =>
    { s with
        errors := s.errors ++ ["Channel \"" ++ ch.name ++ "\": " ++ m],
        trace := s.trace ++ [c] }

/-- One iteration of the outer category loop of Phase 2 (the counter is
`catIndex`, incremented for every category; the category is created at
position `catIndex - 1`).  A category failure skips that category's
channels and continues with the next category. -/
def catStep (api : Api) (guildId : String) (roles : List RoleConfig)
    (acc : ExecState × Nat) (cat : CategoryConfig) : ExecState × Nat :=
  let s := acc.1
  let catIndex := acc.2 + 1
  let c := ApiCall.createCategory guildId cat.name (catIndex - 1)
  match api c with
  | .ok catId =>
    let s1 := { s with categories := s.categories + 1, trace := s.trace ++ [c] }
    (cat.channels.foldl (chanStep api guildId roles catId) s1, catIndex)
  | .error m =>
    ({ s with
         errors := s.errors ++ ["Category \"" ++ cat.name ++ "\": " ++ m],
         trace := s.trace ++ [c] }, catIndex)

def categoriesPhase (api : Api) (guildId : String) (roles : List RoleConfig)
    (cats : List CategoryConfig) (s : ExecState) : ExecState :=
  (cats.foldl (catStep api guildId roles) (s, 0)).1

/-- The embed payload of Phase 3 (`config.embed.color ? parseInt(...) : 0x5865f2`
and the `if (...)` guards are JS truthiness tests on strings). -/
def embedBody (e : ChannelEmbed) : EmbedBody :=
  { title := e.title,
    color := if truthyStr e.color then parseColor (e.color.getD "") else 0x5865F2,
    description := if truthyStr e.description then e.description else none,
    fields := e.fields,
    footer := if truthyStr e.footer then e.footer else none }

/-- One iteration of Phase 3 over the queued channels (`if (!config.embed) continue`
can only hit for a queue entry without an embed, which the queueing
guard excludes; it is kept for faithfulness). -/
def embedStep (api : Api) (s : ExecState) (item : String × ChannelConfig) : ExecState :=
  match item.2.embed with
  | none => s
  | some e =>
    let c := ApiCall.postMessage item.1 (embedBody e)
    match api c with
    | .ok _ => { s with embeds := s.embeds + 1, trace := s.trace ++ [c] }
    | .error m =>
      { s with
          errors := s.errors ++ ["Embed in \"" ++ item.2.name ++ "\": " ++ m],
          trace := s.trace ++ [c] }

def embedsPhase (api : Api) (s : ExecState) : ExecState :=
  s.queue.foldl (embedStep api) s

/-- Phase 4: patch guild settings when the template has them (the JS
code copies exactly the defined fields into the patch body; the
`GuildSettings` record of options carries the same information). -/
def settingsPhase (api : Api) (guildId : String) (t : ServerTemplate)
    (s : ExecState) : ExecState :=
  match t.settings with
  | none => s
  | some st =>
    let c := ApiCall.patchGuild guildId st
    match api c with
    | .ok _ => { s with trace := s.trace ++ [c] }
    | .error m =>
      { s with
          errors := s.errors ++ ["Settings: " ++ m],
          trace := s.trace ++ [c] }

/-- `SetupService.execute()`: the four phases in order, then the
`SetupResult` with `success: errors.length === 0`.  Also returns the
trace of issued calls. -/
def execute (t : ServerTemplate) (guildId : String) (api : Api) :
    SetupResult × List ApiCall :=
  let s1 := rolesPhase api guildId t.roles {}
  let s2 := categoriesPhase api guildId t.roles t.categories s1
  let s3 := embedsPhase api s2
  let s4 := settingsPhase api guildId t s3
  ({ success := s4.errors.isEmpty, roles := s4.roles, categories := s4.categories,
     channels := s4.channels, embeds := s4.embeds, errors := s4.errors, duration := 0 },
   s4.trace)

/-- Whether the oracle fails a given call. -/
def apiFails (api : Api) (c : ApiCall) : Bool :=
  match api c with
  | .ok _ => false
  | .error _ => true

/-- Number of failed calls in a trace. -/
def countFails (api : Api) (l : List ApiCall) : Nat :=
  (l.filter (apiFails api)).length

def isRoleCall : ApiCall → Bool
  | .createRole .. => true
  | _ => false

def isCategoryCall : ApiCall → Bool
  | .createCategory .. => true
  | _ => false

end Bot

/-- C9: the `SetupResult` of every run has `success = true` exactly when
its error list is empty — `success: errors.length === 0` — regardless of
the counters or of which calls succeeded. -/
theorem setup_success_iff_no_errors (t : ServerTemplate) (guildId : String) (api : Bot.Api) :
    ((Bot.execute t guildId api).1.success = true)
      ↔ (Bot.execute t guildId api).1.errors = [] := by
  simp [Bot.execute, List.isEmpty_iff]

namespace Bot

theorem countFails_append (api : Api) (l1 l2 : List ApiCall) :
    countFails api (l1 ++ l2) = countFails api l1 + countFails api l2 := by
  simp [countFails, List.filter_append]

/-- Error accounting invariant: one recorded message per failed call. -/
def Balanced (api : Api) (s : ExecState) : Prop :=
  s.errors.length = countFails api s.trace

theorem foldl_preserve {α σ : Type _} (P : σ → Prop) (f : σ → α → σ)
    (hf : ∀ s a, P s → P (f s a)) :
    ∀ (l : List α) (s : σ), P s → P (l.foldl f s) := by
  intro l
  induction l with
  | nil => intro s hs; exact hs
  | cons a m ih =>
    intro s hs
    exact ih _ (hf s a hs)

theorem balanced_rolesStep (api : Api) (g : String) (s : ExecState) (r : RoleConfig)
    (hb : Balanced api s) : Balanced api (rolesStep api g s r) := by
  unfold Balanced at hb
  unfold Balanced rolesStep
  cases h : api (roleCall g r) <;>
    simp [countFails_append, countFails, apiFails, h, List.filter_cons, hb]

theorem balanced_chanStep (api : Api) (g : String) (roles : List RoleConfig)
    (parent : String) (s : ExecState) (ch : ChannelConfig)
    (hb : Balanced api s) : Balanced api (chanStep api g roles parent s ch) := by
  unfold Balanced at hb
  unfold Balanced chanStep
  cases h : api (ApiCall.createChannel g (channelBody roles s.roleMap g parent ch)) <;>
    simp [countFails_append, countFails, apiFails, h, List.filter_cons, hb]

theorem balanced_catStep (api : Api) (g : String) (roles : List RoleConfig)
    (acc : ExecState × Nat) (cat : CategoryConfig)
    (hb : Balanced api acc.1) : Balanced api (catStep api g roles acc cat).1 := by
  unfold catStep
  dsimp only
  split
  next catId h =>
    simp only [Nat.add_sub_cancel] at h
    simp only
    refine foldl_preserve (Balanced api) _
      (fun s' c' hb' => balanced_chanStep api g roles catId s' c' hb') _ _ ?_
    unfold Balanced at hb ⊢
    simp [countFails_append, countFails, apiFails, h, List.filter_cons, hb]
  next m h =>
    simp only [Nat.add_sub_cancel] at h
    simp only
    unfold Balanced at hb ⊢
    simp [countFails_append, countFails, apiFails, h, List.filter_cons, hb]

theorem balanced_embedStep (api : Api) (s : ExecState) (item : String × ChannelConfig)
    (hb : Balanced api s) : Balanced api (embedStep api s item) := by
  unfold Balanced at hb
  unfold Balanced embedStep
  cases item.2.embed with
  | none => exact hb
  | some e =>
    cases h : api (ApiCall.postMessage item.1 (embedBody e)) <;>
      simp [countFails_append, countFails, apiFails, h, List.filter_cons, hb]

theorem balanced_settingsPhase (api : Api) (g : String) (t : ServerTemplate)
    (s : ExecState) (hb : Balanced api s) : Balanced api (settingsPhase api g t s) := by
  unfold Balanced at hb
  unfold Balanced settingsPhase
  cases t.settings with
  | none => exact hb
  | some st =>
    cases h : api (ApiCall.patchGuild g st) <;>
      simp [countFails_append, countFails, apiFails, h, List.filter_cons, hb]

end Bot

namespace Bot

theorem rolesStep_trace (api : Api) (g : String) (s : ExecState) (r : RoleConfig) :
    (rolesStep api g s r).trace = s.trace ++ [roleCall g r] := by
  unfold rolesStep
  dsimp only
  cases api (roleCall g r) <;> rfl

theorem rolesFold_trace (api : Api) (g : String) :
    ∀ (l : List RoleConfig) (s : ExecState),
      (l.foldl (rolesStep api g) s).trace = s.trace ++ l.map (roleCall g) := by
  intro l
  induction l with
  | nil => intro s; simp
  | cons r m ih =>
    intro s
    rw [List.foldl_cons, List.map_cons, ih, rolesStep_trace]
    simp

/-- Phase 1 issues exactly one role-creation call per template role, in
stable ascending-position order. -/
theorem rolesPhase_trace (api : Api) (g : String) (roles : List RoleConfig) (s : ExecState) :
    (rolesPhase api g roles s).trace = s.trace ++ (sortRoles roles).map (roleCall g) :=
  rolesFold_trace api g (sortRoles roles) s

theorem chanStep_trace (api : Api) (g : String) (roles : List RoleConfig) (parent : String)
    (s : ExecState) (ch : ChannelConfig) :
    (chanStep api g roles parent s ch).trace
      = s.trace ++ [ApiCall.createChannel g (channelBody roles s.roleMap g parent ch)] := by
  unfold chanStep
  dsimp only
  cases api (ApiCall.createChannel g (channelBody roles s.roleMap g parent ch)) <;> rfl

theorem chansFold_filter (api : Api) (g : String) (roles : List RoleConfig) (parent : String)
    (p : ApiCall → Bool) (hp : ∀ gid b, p (ApiCall.createChannel gid b) = false) :
    ∀ (chans : List ChannelConfig) (s : ExecState),
      ((chans.foldl (chanStep api g roles parent) s).trace).filter p = s.trace.filter p := by
  intro chans
  induction chans with
  | nil => intro s; rfl
  | cons ch m ih =>
    intro s
    rw [List.foldl_cons, ih, chanStep_trace, List.filter_append]
    simp [hp]

theorem catStep_filter (api : Api) (g : String) (roles : List RoleConfig)
    (p : ApiCall → Bool) (hp_chan : ∀ gid b, p (ApiCall.createChannel gid b) = false)
    (hp_cat : ∀ gid n pos, p (ApiCall.createCategory gid n pos) = false)
    (acc : ExecState × Nat) (cat : CategoryConfig) :
    (((catStep api g roles acc cat).1).trace).filter p = ((acc.1).trace).filter p := by
  unfold catStep
  dsimp only
  split
  next catId h =>
    rw [chansFold_filter api g roles catId p hp_chan, List.filter_append]
    simp [hp_cat]
  next m h =>
    rw [List.filter_append]
    simp [hp_cat]

theorem catsFold_filter (api : Api) (g : String) (roles : List RoleConfig)
    (p : ApiCall → Bool) (hp_chan : ∀ gid b, p (ApiCall.createChannel gid b) = false)
    (hp_cat : ∀ gid n pos, p (ApiCall.createCategory gid n pos) = false) :
    ∀ (cats : List CategoryConfig) (acc : ExecState × Nat),
      (((cats.foldl (catStep api g roles) acc).1).trace).filter p = ((acc.1).trace).filter p := by
  intro cats
  induction cats with
  | nil => intro acc; rfl
  | cons cat m ih =>
    intro acc
    rw [List.foldl_cons, ih, catStep_filter api g roles p hp_chan hp_cat]

theorem categoriesPhase_filter (api : Api) (g : String) (roles : List RoleConfig)
    (p : ApiCall → Bool) (hp_chan : ∀ gid b, p (ApiCall.createChannel gid b) = false)
    (hp_cat : ∀ gid n pos, p (ApiCall.createCategory gid n pos) = false)
    (cats : List CategoryConfig) (s : ExecState) :
    ((categoriesPhase api g roles cats s).trace).filter p = (s.trace).filter p :=
  catsFold_filter api g roles p hp_chan hp_cat cats (s, 0)

theorem catStep_catCalls (api : Api) (g : String) (roles : List RoleConfig)
    (acc : ExecState × Nat) (cat : CategoryConfig) :
    ((((catStep api g roles acc cat).1).trace).filter isCategoryCall).length
      = (((acc.1).trace).filter isCategoryCall).length + 1 := by
  unfold catStep
  dsimp only
  split
  next catId h =>
    rw [chansFold_filter api g roles catId isCategoryCall (fun _ _ => rfl), List.filter_append]
    simp [isCategoryCall]
  next m h =>
    rw [List.filter_append]
    simp [isCategoryCall]

theorem catsFold_catCalls (api : Api) (g : String) (roles : List RoleConfig) :
    ∀ (cats : List CategoryConfig) (acc : ExecState × Nat),
      ((((cats.foldl (catStep api g roles) acc).1).trace).filter isCategoryCall).length
        = (((acc.1).trace).filter isCategoryCall).length + cats.length := by
  intro cats
  induction cats with
  | nil => intro acc; rfl
  | cons cat m ih =>
    intro acc
    rw [List.foldl_cons, ih, catStep_catCalls]
    simp
    omega

theorem categoriesPhase_catCalls (api : Api) (g : String) (roles : List RoleConfig)
    (cats : List CategoryConfig) (s : ExecState) :
    (((categoriesPhase api g roles cats s).trace).filter isCategoryCall).length
      = ((s.trace.filter isCategoryCall)).length + cats.length :=
  catsFold_catCalls api g roles cats (s, 0)

theorem embedStep_filter (api : Api) (p : ApiCall → Bool)
    (hp : ∀ cid e, p (ApiCall.postMessage cid e) = false)
    (s : ExecState) (item : String × ChannelConfig) :
    ((embedStep api s item).trace).filter p = (s.trace).filter p := by
  unfold embedStep
  cases item.2.embed with
  | none => rfl
  | some e =>
    dsimp only
    cases api (ApiCall.postMessage item.1 (embedBody e)) <;>
      simp [List.filter_append, hp]

theorem embedsFold_filter (api : Api) (p : ApiCall → Bool)
    (hp : ∀ cid e, p (ApiCall.postMessage cid e) = false) :
    ∀ (items : List (String × ChannelConfig)) (s : ExecState),
      ((items.foldl (embedStep api) s).trace).filter p = s.trace.filter p := by
  intro items
  induction items with
  | nil => intro s; rfl
  | cons item m ih =>
    intro s
    rw [List.foldl_cons, ih, embedStep_filter api p hp]

theorem embedsPhase_filter (api : Api) (p : ApiCall → Bool)
    (hp : ∀ cid e, p (ApiCall.postMessage cid e) = false) (s : ExecState) :
    ((embedsPhase api s).trace).filter p = s.trace.filter p :=
  embedsFold_filter api p hp s.queue s

theorem settingsPhase_filter (api : Api) (g : String) (t : ServerTemplate)
    (p : ApiCall → Bool) (hp : ∀ gid st, p (ApiCall.patchGuild gid st) = false)
    (s : ExecState) :
    ((settingsPhase api g t s).trace).filter p = (s.trace).filter p := by
  unfold settingsPhase
  cases t.settings with
  | none => rfl
  | some st =>
    dsimp only
    cases api (ApiCall.patchGuild g st) <;>
      simp [List.filter_append, hp]

theorem roleCalls_filter_self (g : String) (l : List RoleConfig) :
    (l.map (roleCall g)).filter isRoleCall = l.map (roleCall g) :=
  List.filter_eq_self.mpr (fun c hc => by
    obtain ⟨r, _, hr⟩ := List.mem_map.mp hc
    rw [← hr]
    rfl)

theorem roleCalls_filter_cat (g : String) (l : List RoleConfig) :
    (l.map (roleCall g)).filter isCategoryCall = [] :=
  List.filter_eq_nil_iff.mpr (fun c hc => by
    obtain ⟨r, _, hr⟩ := List.mem_map.mp hc
    rw [← hr]
    simp [isCategoryCall, roleCall])

end Bot

/-- C6: runs never abort: every per-item failure (role, category,
channel, embed, settings) appends exactly one error message — the error
list is exactly as long as the list of failed calls in the trace — and
the phases keep going: one role-creation call is issued per template
role and one category-creation call per template category, no matter
which earlier calls failed, and a `SetupResult` is always produced
(`execute` is total). -/
theorem per_item_failure_accounting (t : ServerTemplate) (guildId : String) (api : Bot.Api) :
    (Bot.execute t guildId api).1.errors.length
        = Bot.countFails api (Bot.execute t guildId api).2
    ∧ (((Bot.execute t guildId api).2).filter Bot.isRoleCall).length = t.roles.length
    ∧ (((Bot.execute t guildId api).2).filter Bot.isCategoryCall).length
        = t.categories.length := by
  unfold Bot.execute
  dsimp only
  have h1 : Bot.Balanced api (Bot.rolesPhase api guildId t.roles {}) := by
    unfold Bot.rolesPhase
    exact Bot.foldl_preserve (Bot.Balanced api) _
      (fun s r hb => Bot.balanced_rolesStep api guildId s r hb) _ _ rfl
  have h2 : Bot.Balanced api
      (Bot.categoriesPhase api guildId t.roles t.categories
        (Bot.rolesPhase api guildId t.roles {})) := by
    unfold Bot.categoriesPhase
    exact Bot.foldl_preserve (fun acc => Bot.Balanced api acc.1) _
      (fun acc cat hb => Bot.balanced_catStep api guildId t.roles acc cat hb)
      t.categories (Bot.rolesPhase api guildId t.roles {}, 0) h1
  have h3 : Bot.Balanced api
      (Bot.embedsPhase api
        (Bot.categoriesPhase api guildId t.roles t.categories
          (Bot.rolesPhase api guildId t.roles {}))) := by
    unfold Bot.embedsPhase
    exact Bot.foldl_preserve (Bot.Balanced api) _
      (fun s it hb => Bot.balanced_embedStep api s it hb) _ _ h2
  have h4 := Bot.balanced_settingsPhase api guildId t _ h3
  refine ⟨h4, ?_, ?_⟩
  · rw [Bot.settingsPhase_filter api guildId t Bot.isRoleCall (fun _ _ => rfl),
      Bot.embedsPhase_filter api Bot.isRoleCall (fun _ _ => rfl),
      Bot.categoriesPhase_filter api guildId t.roles Bot.isRoleCall
        (fun _ _ => rfl) (fun _ _ _ => rfl),
      Bot.rolesPhase_trace]
    simp [Bot.roleCalls_filter_self, Bot.sortRoles]
  · rw [Bot.settingsPhase_filter api guildId t Bot.isCategoryCall (fun _ _ => rfl),
      Bot.embedsPhase_filter api Bot.isCategoryCall (fun _ _ => rfl),
      Bot.categoriesPhase_catCalls, Bot.rolesPhase_trace]
    simp [Bot.roleCalls_filter_cat]

namespace Bot

theorem chanStep_roleMap (api : Api) (g : String) (roles : List RoleConfig)
    (parent : String) (s : ExecState) (ch : ChannelConfig) :
    (chanStep api g roles parent s ch).roleMap = s.roleMap := by
  unfold chanStep
  dsimp only
  cases api (ApiCall.createChannel g (channelBody roles s.roleMap g parent ch)) <;> rfl

theorem chansFold_roleMap (api : Api) (g : String) (roles : List RoleConfig)
    (parent : String) :
    ∀ (chans : List ChannelConfig) (s : ExecState),
      (chans.foldl (chanStep api g roles parent) s).roleMap = s.roleMap := by
  intro chans
  induction chans with
  | nil => intro s; rfl
  | cons ch m ih =>
    intro s
    rw [List.foldl_cons, ih, chanStep_roleMap]

theorem catStep_roleMap (api : Api) (g : String) (roles : List RoleConfig)
    (acc : ExecState × Nat) (cat : CategoryConfig) :
    ((catStep api g roles acc cat).1).roleMap = (acc.1).roleMap := by
  unfold catStep
  dsimp only
  split
  next catId h => rw [chansFold_roleMap]
  next msg h => rfl

theorem catsFold_roleMap (api : Api) (g : String) (roles : List RoleConfig) :
    ∀ (cats : List CategoryConfig) (acc : ExecState × Nat),
      (((cats.foldl (catStep api g roles) acc).1)).roleMap = ((acc.1)).roleMap := by
  intro cats
  induction cats with
  | nil => intro acc; rfl
  | cons cat m ih =>
    intro acc
    rw [List.foldl_cons, ih, catStep_roleMap]

/-- The role map is complete when Phase 2 starts and is never written
again during it: every channel's overwrites are built from the Phase 1
map. -/
theorem categoriesPhase_roleMap (api : Api) (g : String) (roles : List RoleConfig)
    (cats : List CategoryConfig) (s : ExecState) :
    (categoriesPhase api g roles cats s).roleMap = s.roleMap :=
  catsFold_roleMap api g roles cats (s, 0)

theorem rolesFold_mem (api : Api) (g : String) :
    ∀ (l : List RoleConfig) (s : ExecState),
      (∀ r ∈ l, apiFails api (roleCall g r) = false) →
      ∀ n : String, (n ∈ l.map RoleConfig.name ∨ ((s.roleMap.lookup n)).isSome) →
        ((((l.foldl (rolesStep api g) s).roleMap).lookup n)).isSome := by
  intro l
  induction l with
  | nil =>
    intro s _ n hn
    rcases hn with hmem | hsome
    · cases hmem
    · exact hsome
  | cons r m ih =>
    intro s hok n hn
    rw [List.foldl_cons]
    have hr : apiFails api (roleCall g r) = false := hok r (List.mem_cons_self r m)
    have hmap : ∃ rid, (rolesStep api g s r).roleMap = (r.name, rid) :: s.roleMap := by
      unfold rolesStep
      dsimp only
      cases h : api (roleCall g r) with
      | ok rid => exact ⟨rid, rfl⟩
      | error msg =>
        exfalso
        unfold apiFails at hr
        rw [h] at hr
        exact Bool.noConfusion hr
    obtain ⟨rid, hm⟩ := hmap
    apply ih (rolesStep api g s r) (fun r' hr' => hok r' (List.mem_cons_of_mem _ hr')) n
    rcases hn with hmem | hsome
    · rw [List.map_cons, List.mem_cons] at hmem
      rcases hmem with hn1 | hn2
      · right
        rw [hm, hn1]
        simp [List.lookup]
      · left
        exact hn2
    · right
      rw [hm]
      cases hbe : (n == r.name) <;> simp [List.lookup, hbe, hsome]

/-- The stable sort of Phase 1 produces ascending positions. -/
theorem sortRoles_sorted (roles : List RoleConfig) :
    List.Sorted (· ≤ ·) ((sortRoles roles).map RoleConfig.position) := by
  have hp : List.Pairwise (fun a b : RoleConfig => (decide (a.position ≤ b.position)) = true)
      (roles.mergeSort (fun a b => decide (a.position ≤ b.position))) :=
    List.sorted_mergeSort
      (fun a b c hab hbc => by
        simp only [decide_eq_true_eq] at hab hbc ⊢
        omega)
      (fun a b => by
        simp only [Bool.or_eq_true, decide_eq_true_eq]
        exact Int.le_total a.position b.position)
      roles
  unfold sortRoles
  exact List.Pairwise.map _ (fun a b h => by simpa using h) hp

end Bot

/-- R is referenced by some channel rule of the template: it is named
by a `role_locked` rule, or a `staff_only` rule exists and R is one of
the staff roles it grants access to. -/
def ReferencedRole (t : ServerTemplate) (R : String) : Prop :=
  (∃ cat ∈ t.categories, ∃ ch ∈ cat.channels,
      ch.permissions.bind (·.role_locked) = some R)
    ∨ ((∃ cat ∈ t.categories, ∃ ch ∈ cat.channels,
        ch.permissions.bind (·.staff_only) = some true)
      ∧ R ∈ Bot.staffRoleNames t.roles)

theorem sortRoles_perm (roles : List RoleConfig) : (Bot.sortRoles roles).Perm roles :=
  List.mergeSort_perm roles _

def sampleTemplate : ServerTemplate :=
  { id := "tpl", name := "T", description := "d",
    categories := [{ name := "General", channels := [sampleLockedChannel] }],
    roles := sampleRoles }

def sampleApi : Bot.Api := fun _ => .ok "1"

/-- C3: Phase 1 issues exactly one role-creation call per template role,
in stable ascending-position order; each successful creation is recorded
in the role map at once; the map is not written again during the
Categories&Channels phase (so the map each channel's overwrites are
built from is the Phase 1 map); and when the role-creation calls
succeed, every role referenced by a `role_locked` or `staff_only` rule
that exists in the role list is present in that map. -/
theorem roles_phase_order_and_rolemap (t : ServerTemplate) (guildId : String) (api : Bot.Api) :
    (Bot.rolesPhase api guildId t.roles {}).trace
        = (Bot.sortRoles t.roles).map (Bot.roleCall guildId)
    ∧ List.Sorted (· ≤ ·) ((Bot.sortRoles t.roles).map RoleConfig.position)
    ∧ (Bot.categoriesPhase api guildId t.roles t.categories
          (Bot.rolesPhase api guildId t.roles {})).roleMap
        = (Bot.rolesPhase api guildId t.roles {}).roleMap
    ∧ ((∀ r ∈ t.roles, Bot.apiFails api (Bot.roleCall guildId r) = false) →
        ∀ R : String, ReferencedRole t R → (∃ r ∈ t.roles, r.name = R) →
          (((Bot.rolesPhase api guildId t.roles {}).roleMap.lookup R)).isSome = true) := by
  refine ⟨?_, Bot.sortRoles_sorted t.roles, Bot.categoriesPhase_roleMap _ _ _ _ _, ?_⟩
  · rw [Bot.rolesPhase_trace]
    simp
  · intro hok R _ hex
    unfold Bot.rolesPhase
    apply Bot.rolesFold_mem api guildId (Bot.sortRoles t.roles) _ ?_ R (Or.inl ?_)
    · intro r hr
      exact hok r ((sortRoles_perm t.roles).mem_iff.mp hr)
    · obtain ⟨r, hrmem, hname⟩ := hex
      rw [← hname]
      exact List.mem_map_of_mem RoleConfig.name ((sortRoles_perm t.roles).mem_iff.mpr hrmem)

theorem roles_phase_order_and_rolemap_witness :
    (((Bot.rolesPhase sampleApi "g" sampleTemplate.roles {}).roleMap.lookup "Admin")).isSome
      = true :=
  (roles_phase_order_and_rolemap sampleTemplate "g" sampleApi).2.2.2
    (fun _ _ => rfl) "Admin"
    (Or.inl ⟨{ name := "General", channels := [sampleLockedChannel] },
      by simp [sampleTemplate], sampleLockedChannel, by simp, rfl⟩)
    (by decide)

/-! ## CLI build pipeline (`ServerBuilder` in builder.ts, C4/C8) -/

namespace Cli

/-- JS `String.prototype.includes`, via `splitOn`: the separator occurs
iff splitting on it yields more than one part. -/
def strIncludes (s sub : String) : Bool :=
  (s.splitOn sub).length != 1

/-- `isFatalError(err)`: a `DiscordApiError` with status 401, or 403
with a message containing "Missing Access". -/
def isFatalError (e : DiscordApiError) : Bool :=
  e.status == 401 || (e.status == 403 && strIncludes e.message "Missing Access")

/-- The bot member as read by preflight (`permissions` may be absent,
`BigInt(botMember.permissions || '0')`). -/
structure Member where
  permissions : Option Nat := none

structure BuildOptions where
  serverName : Option String := none
  includeStaff : Bool
  includeEngagement : Bool

structure RoleBody where
  name : String
  color : Nat
  hoist : Bool
  mentionable : Bool
  permissions : Nat
  deriving DecidableEq, Repr

structure ChannelBody where
  name : String
  type : Nat
  parent_id : String
  permission_overwrites : List Overwrite
  user_limit : Option Nat := none
  bitrate : Option Nat := none
  topic : Option String := none
  available_tags : Option (List String) := none
  rate_limit_per_user : Option Nat := none
  nsfw : Option Bool := none
  deriving DecidableEq, Repr

structure EmbedBody where
  title : String
  color : Nat
  description : Option String := none
  fields : Option (List EmbedField) := none
  footer : Option String := none
  thumbnail : Option String := none
  image : Option String := none
  deriving DecidableEq, Repr

/-- The `modifyGuild` patch body built by `applySettings` (fields set
only when defined / truthy). -/
structure SettingsBody where
  verification_level : Option Nat := none
  default_message_notifications : Option Nat := none
  explicit_content_filter : Option Nat := none
  name : Option String := none
  deriving DecidableEq, Repr

/-- A mutating remote call issued by the builder. -/
inductive ApiCall where
  | createRole (guildId : String) (body : RoleBody)
  | createCategory (guildId name : String) (position : Nat)
  | createChannel (guildId : String) (body : ChannelBody)
  | postEmbed (channelId : String) (embed : EmbedBody)
  | modifyGuild (guildId : String) (settings : SettingsBody)
  deriving DecidableEq, Repr

/-- The remote API: the two reads used by preflight, and the
deterministic outcome of each mutating call (the outcome the retrying
`DiscordClient.request` wrapper finally surfaces).  A `getGuild`
success stands for a found guild (the `if (!guild)` null check of
preflight has no counterpart: the REST layer signals a missing guild
with a 404 error). -/
structure Api where
  getGuild : Except DiscordApiError Unit
  getBotMember : Option Member
  create : ApiCall → Except DiscordApiError String

/-- `MANAGE_CHANNELS | MANAGE_ROLES | MANAGE_GUILD` from the preflight
permission check. -/
def requiredPerms : Nat := (1 <<< 4) ||| (1 <<< 28) ||| (1 <<< 5)

/-- `preflight()`: the list of blocking errors — guild reachability,
bot permissions (skipped when the member cannot be read), template
non-emptiness, and staff-role availability when staff content is
enabled. -/
def preflight (api : Api) (t : ServerTemplate) (opts : BuildOptions) : List String :=
  (match api.getGuild with
   | .ok _ => []
   | .error e =>
     if e.status == 403 then
       ["Bot does not have access to this guild. Invite the bot first."]
     else if e.status == 404 then
       ["Guild not found. Check the server ID."]
     else
       ["Cannot reach guild: " ++ e.message])
  ++ (match api.getBotMember with
      | some m =>
        let perms := m.permissions.getD 0
        if (perms &&& requiredPerms) != requiredPerms && (perms &&& (1 <<< 3)) == 0 then
          ["Bot needs MANAGE_CHANNELS, MANAGE_ROLES, and MANAGE_GUILD permissions."]
        else []
      | none => [])
  ++ (if t.categories.isEmpty then ["Template has no categories."] else [])
  ++ (if t.roles.isEmpty then ["Template has no roles."] else [])
  ++ (if opts.includeStaff && (staffRoleNames t.roles).isEmpty then
        ["Template has staff channels but no staff roles (position >= 12)."]
      else [])

structure BuildResult where
  categoriesCreated : Nat := 0
  channelsCreated : Nat := 0
  rolesCreated : Nat := 0
  embedsSent : Nat := 0
  errors : List String := []
  duration : Nat := 0
  deriving Repr

structure BuildState where
  roleMap : RoleMap := []
  result : BuildResult := {}
  queue : List (String × ChannelConfig) := []
  trace : List ApiCall := []

/-- Outcome of a phase: continue with the new state, or a rethrown
fatal error (the state is kept so the calls already made stay
observable — in the source whatever was created is simply left in
place). -/
inductive StepOut where
  | next (s : BuildState)
  | fatal (e : DiscordApiError) (s : BuildState)

/-- `parseColor` in builder.ts — same body as the bot's. -/
def parseColor (color : String) : Nat := Bot.parseColor color

/-- Same stable ascending sort by position as the bot service. -/
def sortRoles (roles : List RoleConfig) : List RoleConfig :=
  roles.mergeSort (fun a b => decide (a.position ≤ b.position))

def roleBody (r : RoleConfig) : RoleBody :=
  { name := r.name, color := parseColor r.color, hoist := r.hoist,
    mentionable := r.mentionable.getD false,
    permissions := resolvePermissions (r.permissions.getD []) }

/-- The loop body of `createRoles()`: create each role in sorted order;
a fatal error is rethrown at once, any other failure appends one error
message and the loop continues. -/
def createRolesGo (api : Api) (guildId : String) :
    List RoleConfig → BuildState → StepOut
  | [], s => .next s
  | r :: rest, s =>
    let c := ApiCall.createRole guildId (roleBody r)
    match api.create c with
    | .ok rid =>
      createRolesGo api guildId rest
        { s with
            roleMap := ((r.name, rid) :: s.roleMap),
            result := { s.result with rolesCreated := s.result.rolesCreated + 1 },
            trace := s.trace ++ [c] }
    | .error e =>
      if isFatalError e then
        .fatal e { s with trace := s.trace ++ [c] }
      else
        createRolesGo api guildId rest
          { s with
              result := { s.result with
                errors := s.result.errors ++ ["Role \"" ++ r.name ++ "\": " ++ e.message] },
              trace := s.trace ++ [c] }

def createRoles (api : Api) (guildId : String) (roles : List RoleConfig)
    (s : BuildState) : StepOut :=
  createRolesGo api guildId (sortRoles roles) s

/-- The `ChannelTypes[channel.type] ?? ChannelTypes.text` lookup. -/
def ChannelTypes : ChannelKind → Nat
  | .text => 0
  | .voice => 2
  | .announcement => 5
  | .stage => 13
  | .forum => 15

def channelBody (roles : List RoleConfig) (roleMap : RoleMap) (guildId parentId : String)
    (ch : ChannelConfig) : ChannelBody :=
  let base : ChannelBody :=
    { name := ch.name, type := ChannelTypes ch.type, parent_id := parentId,
      permission_overwrites := buildPermissionOverwrites roles roleMap guildId ch }
  match ch.type with
  | .voice | .stage =>
    { base with
        user_limit := some (ch.user_limit.getD 0),
        bitrate := some (ch.bitrate.getD 64000) }
  | .forum =>
    { base with topic := ch.topic, available_tags := some (ch.tags.getD []) }
  | _ =>
    { base with
        topic := ch.topic,
        rate_limit_per_user := some (ch.slowmode.getD 0),
        nsfw := some (ch.nsfw.getD false) }

/-- `createChannel()`: create one channel; rethrow fatal errors, record
any other failure as a per-item error. -/
def createChannel (api : Api) (guildId : String) (roles : List RoleConfig)
    (categoryId : String) (ch : ChannelConfig) (s : BuildState) : StepOut :=
  let c := ApiCall.createChannel guildId (channelBody roles s.roleMap guildId categoryId ch)
  match api.create c with
  | .ok cid =>
    .next { s with
        result := { s.result with channelsCreated := s.result.channelsCreated + 1 },
        queue := s.queue ++ (if ch.embed.isSome then [(cid, ch)] else []),
        trace := s.trace ++ [c] }
  | .error e =>
    if isFatalError e then
      .fatal e { s with trace := s.trace ++ [c] }
    else
      .next { s with
          result := { s.result with
            errors := s.result.errors ++ ["Channel \"" ++ ch.name ++ "\": " ++ e.message] },
          trace := s.trace ++ [c] }

def createChannelsGo (api : Api) (guildId : String) (roles : List RoleConfig)
    (categoryId : String) : List ChannelConfig → BuildState → StepOut
  | [], s => .next s
  | ch :: rest, s =>
    match createChannel api guildId roles categoryId ch s with
    | .next s' => createChannelsGo api guildId roles categoryId rest s'
    | .fatal e s' => .fatal e s'

def isStaffCategory (cat : CategoryConfig) : Bool :=
  let n := cat.name.toLower
  strIncludes n "staff" || strIncludes n "admin" || strIncludes n "mod-only"

def isEngagementCategory (cat : CategoryConfig) : Bool :=
  let n := cat.name.toLower
  strIncludes n "engagement" || strIncludes n "fun" || strIncludes n "activity"

/-- The loop body of `createCategories()`: staff/engagement categories
may be skipped by the options (they do not consume a position); a
category failure skips its channels; fatal errors — including one
rethrown by `createChannel` — abort. -/
def createCategoriesGo (api : Api) (guildId : String) (roles : List RoleConfig)
    (opts : BuildOptions) : List CategoryConfig → Nat → BuildState → StepOut
  | [], _, s => .next s
  | cat :: rest, pos, s =>
    if !opts.includeStaff && isStaffCategory cat then
      createCategoriesGo api guildId roles opts rest pos s
    else if !opts.includeEngagement && isEngagementCategory cat then
      createCategoriesGo api guildId roles opts rest pos s
    else
      let c := ApiCall.createCategory guildId cat.name pos
      match api.create c with
      | .ok catId =>
        let s1 := { s with
          result := { s.result with categoriesCreated := s.result.categoriesCreated + 1 },
          trace := s.trace ++ [c] }
        match createChannelsGo api guildId roles catId cat.channels s1 with
        | .next s2 => createCategoriesGo api guildId roles opts rest (pos + 1) s2
        | .fatal e s2 => .fatal e s2
      | .error e =>
        if isFatalError e then
          .fatal e { s with trace := s.trace ++ [c] }
        else
          createCategoriesGo api guildId roles opts rest (pos + 1)
            { s with
                result := { s.result with
                  errors := s.result.errors ++ ["Category \"" ++ cat.name ++ "\": " ++ e.message] },
                trace := s.trace ++ [c] }

def createCategories (api : Api) (guildId : String) (roles : List RoleConfig)
    (opts : BuildOptions) (cats : List CategoryConfig) (s : BuildState) : StepOut :=
  createCategoriesGo api guildId roles opts cats 0 s

/-- JS `a || b` on an optional string: the default is used when the
value is undefined or empty. -/
def jsOrStr (o : Option String) (d : String) : String :=
  if truthyStr o then o.getD d else d

/-- `applyVariables(text)`: global replacement of the two template
variables. -/
def applyVariables (opts : BuildOptions) (templateName : String) (text : String) : String :=
  (text.replace "\x7b\x7bserver_name\x7d\x7d" (jsOrStr opts.serverName templateName)).replace
    "\x7b\x7btemplate_name\x7d\x7d" templateName

/-- The embed payload assembled by `sendEmbeds()` (string fields are
set only when truthy, and run through `applyVariables`). -/
def embedBody (opts : BuildOptions) (templateName : String) (e : ChannelEmbed) : EmbedBody :=
  { title := applyVariables opts templateName e.title,
    color := if truthyStr e.color then parseColor (e.color.getD "") else 0x5865F2,
    description :=
      if truthyStr e.description then
        some (applyVariables opts templateName (e.description.getD ""))
      else none,
    fields := match e.fields with
      | some fs => some (fs.map (fun f =>
          { name := applyVariables opts templateName f.name,
            value := applyVariables opts templateName f.value,
            inline := some (f.inline.getD false) }))
      | none => none,
    footer :=
      if truthyStr e.footer then
        some (applyVariables opts templateName (e.footer.getD ""))
      else none,
    thumbnail := if truthyStr e.thumbnail then e.thumbnail else none,
    image := if truthyStr e.image then e.image else none }

/-- `sendEmbeds()`: every failure — fatal class included — is recorded
as a per-item error; there is no `isFatalError` rethrow here. -/
def sendEmbedsGo (api : Api) (opts : BuildOptions) (templateName : String) :
    List (String × ChannelConfig) → BuildState → BuildState
  | [], s => s
  | (cid, ch) :: rest, s =>
    match ch.embed with
    | none => sendEmbedsGo api opts templateName rest s
    | some e =>
      let c := ApiCall.postEmbed cid (embedBody opts templateName e)
      match api.create c with
      | .ok _ =>
        sendEmbedsGo api opts templateName rest
          { s with
              result := { s.result with embedsSent := s.result.embedsSent + 1 },
              trace := s.trace ++ [c] }
      | .error er =>
        sendEmbedsGo api opts templateName rest
          { s with
              result := { s.result with
                errors := s.result.errors ++ ["Embed in \"" ++ ch.name ++ "\": " ++ er.message] },
              trace := s.trace ++ [c] }

def sendEmbeds (api : Api) (opts : BuildOptions) (templateName : String)
    (s : BuildState) : BuildState :=
  sendEmbedsGo api opts templateName s.queue s

/-- `applySettings()`: one patch call, failures recorded per-item (no
fatal rethrow); `build()` only invokes it when the template has a
settings object, which is the `match` here. -/
def applySettings (api : Api) (guildId : String) (t : ServerTemplate)
    (opts : BuildOptions) (s : BuildState) : BuildState :=
  match t.settings with
  | none => s
  | some st =>
    let body : SettingsBody :=
      { verification_level := st.verification_level,
        default_message_notifications := st.default_notifications,
        explicit_content_filter := st.explicit_content_filter,
        name := if truthyStr opts.serverName then opts.serverName else none }
    let c := ApiCall.modifyGuild guildId body
    match api.create c with
    | .ok _ => { s with trace := s.trace ++ [c] }
    | .error er =>
      { s with
          result := { s.result with errors := s.result.errors ++ ["Settings: " ++ er.message] },
          trace := s.trace ++ [c] }

/-- How a run can terminate without a `BuildResult`: the preflight
throw, or a rethrown fatal `DiscordApiError`. -/
inductive BuildAbort where
  | preflightFailed (errors : List String)
  | fatal (e : DiscordApiError)

/-- `build()`: preflight, then the four phases; a fatal error
propagates out immediately (nothing further is attempted, nothing
already created is deleted).  Also returns the trace of mutating calls
actually issued. -/
def build (t : ServerTemplate) (opts : BuildOptions) (guildId : String) (api : Api) :
    Except BuildAbort BuildResult × List ApiCall :=
  let pf := preflight api t opts
  if pf.isEmpty then
    match createRoles api guildId t.roles {} with
    | .fatal e s => (.error (.fatal e), s.trace)
    | .next s1 =>
      match createCategories api guildId t.roles opts t.categories s1 with
      | .fatal e s => (.error (.fatal e), s.trace)
      | .next s2 =>
        let s3 := sendEmbeds api opts t.name s2
        let s4 := applySettings api guildId t opts s3
        (.ok s4.result, s4.trace)
  else
    (.error (.preflightFailed pf), [])

def isCreationCall : ApiCall → Bool
  | .createRole .. => true
  | .createCategory .. => true
  | .createChannel .. => true
  | _ => false

def isEmbedCall : ApiCall → Bool
  | .postEmbed .. => true
  | _ => false

/-- The oracle's response to this call is a fatal-class error. -/
def fatalResp (api : Api) (c : ApiCall) : Bool :=
  match api.create c with
  | .ok _ => false
  | .error e => isFatalError e

def resultOk : Except BuildAbort BuildResult → Bool
  | .ok _ => true
  | .error _ => false

end Cli

/-- C8: a template with no categories or no roles, or staff content
requested while no roster role satisfies the staff predicate, fails
preflight: `build` terminates with an error and the trace of mutating
calls is empty — no role, category, channel or embed is created. -/
theorem preflight_blocks_empty_template (t : ServerTemplate) (opts : Cli.BuildOptions)
    (guildId : String) (api : Cli.Api)
    (h : t.categories = [] ∨ t.roles = []
        ∨ (opts.includeStaff = true ∧ Cli.staffRoleNames t.roles = [])) :
    (∃ errs, (Cli.build t opts guildId api).1 = .error (.preflightFailed errs))
    ∧ (Cli.build t opts guildId api).2 = [] := by
  have hpf : (Cli.preflight api t opts).isEmpty = false := by
    unfold Cli.preflight
    rcases h with h1 | h2 | h3
    · simp [h1]
    · simp [h2]
    · simp [h3.1, h3.2]
  unfold Cli.build
  simp only [hpf]
  exact ⟨⟨_, rfl⟩, rfl⟩

def sampleEmptyTemplate : ServerTemplate :=
  { id := "e", name := "E", description := "",
    categories := [{ name := "General", channels := [] }], roles := [] }

def sampleOpts : Cli.BuildOptions :=
  { includeStaff := false, includeEngagement := true }

def sampleCliApi : Cli.Api :=
  { getGuild := .ok (), getBotMember := none, create := fun _ => .ok "x" }

theorem preflight_blocks_empty_template_witness :
    (∃ errs, (Cli.build sampleEmptyTemplate sampleOpts "g" sampleCliApi).1
        = .error (.preflightFailed errs))
    ∧ (Cli.build sampleEmptyTemplate sampleOpts "g" sampleCliApi).2 = [] :=
  preflight_blocks_empty_template sampleEmptyTemplate sampleOpts "g" sampleCliApi
    (Or.inr (Or.inl rfl))

namespace Cli

/-- Every creation call in the list received a non-fatal response. -/
def GoodCalls (api : Api) (l : List ApiCall) : Prop :=
  ∀ c ∈ l, isCreationCall c = true → fatalResp api c = false

theorem goodCalls_nil (api : Api) : GoodCalls api [] := by
  intro c hc _
  cases hc

theorem createRolesGo_trace (api : Api) (g : String) :
    ∀ (l : List RoleConfig) (s : BuildState),
      (∀ s', createRolesGo api g l s = .next s' →
        ∃ d, s'.trace = s.trace ++ d ∧ GoodCalls api d)
      ∧ (∀ e s', createRolesGo api g l s = .fatal e s' →
        ∃ d c, s'.trace = s.trace ++ (d ++ [c]) ∧ GoodCalls api d
          ∧ isCreationCall c = true ∧ fatalResp api c = true) := by
  intro l
  induction l with
  | nil =>
    intro s
    refine ⟨fun s' h => ?_, fun e s' h => StepOut.noConfusion h⟩
    cases h
    exact ⟨[], by simp, goodCalls_nil api⟩
  | cons r rest ih =>
    intro s
    constructor
    · intro s' h
      simp only [createRolesGo] at h
      split at h
      next rid hapi =>
        obtain ⟨d, hd, hg⟩ := (ih _).1 s' h
        refine ⟨ApiCall.createRole g (roleBody r) :: d, ?_, ?_⟩
        · rw [hd]
          simp
        · intro c hc hcre
          rcases List.mem_cons.mp hc with rfl | hc2
          · unfold fatalResp
            rw [hapi]
          · exact hg c hc2 hcre
      next e0 hapi =>
        split at h
        next hfat => exact StepOut.noConfusion h
        next hfat =>
          obtain ⟨d, hd, hg⟩ := (ih _).1 s' h
          refine ⟨ApiCall.createRole g (roleBody r) :: d, ?_, ?_⟩
          · rw [hd]
            simp
          · intro c hc hcre
            rcases List.mem_cons.mp hc with rfl | hc2
            · unfold fatalResp
              rw [hapi]
              simpa using hfat
            · exact hg c hc2 hcre
    · intro e s' h
      simp only [createRolesGo] at h
      split at h
      next rid hapi =>
        obtain ⟨d, c, hd, hg, hcr, hf⟩ := (ih _).2 e s' h
        refine ⟨ApiCall.createRole g (roleBody r) :: d, c, ?_, ?_, hcr, hf⟩
        · rw [hd]
          simp
        · intro c' hc' hcre'
          rcases List.mem_cons.mp hc' with rfl | hc2
          · unfold fatalResp
            rw [hapi]
          · exact hg c' hc2 hcre'
      next e0 hapi =>
        split at h
        next hfat =>
          cases h
          refine ⟨[], ApiCall.createRole g (roleBody r), by simp, goodCalls_nil api, rfl, ?_⟩
          unfold fatalResp
          rw [hapi]
          exact hfat
        next hfat =>
          obtain ⟨d, c, hd, hg, hcr, hf⟩ := (ih _).2 e s' h
          refine ⟨ApiCall.createRole g (roleBody r) :: d, c, ?_, ?_, hcr, hf⟩
          · rw [hd]
            simp
          · intro c' hc' hcre'
            rcases List.mem_cons.mp hc' with rfl | hc2
            · unfold fatalResp
              rw [hapi]
              simpa using hfat
            · exact hg c' hc2 hcre'

end Cli

namespace Cli

theorem createChannel_trace (api : Api) (g : String) (roles : List RoleConfig)
    (catId : String) (ch : ChannelConfig) (s : BuildState) :
    (∀ s', createChannel api g roles catId ch s = .next s' →
      ∃ c, s'.trace = s.trace ++ [c] ∧ fatalResp api c = false)
    ∧ (∀ e s', createChannel api g roles catId ch s = .fatal e s' →
      ∃ c, s'.trace = s.trace ++ [c] ∧ isCreationCall c = true ∧ fatalResp api c = true) := by
  constructor
  · intro s' h
    unfold createChannel at h
    dsimp only at h
    split at h
    next cid hapi =>
      cases h
      refine ⟨_, rfl, ?_⟩
      unfold fatalResp
      rw [hapi]
    next e0 hapi =>
      split at h
      next hfat => exact StepOut.noConfusion h
      next hfat =>
        cases h
        refine ⟨_, rfl, ?_⟩
        unfold fatalResp
        rw [hapi]
        simpa using hfat
  · intro e s' h
    unfold createChannel at h
    dsimp only at h
    split at h
    next cid hapi => exact StepOut.noConfusion h
    next e0 hapi =>
      split at h
      next hfat =>
        cases h
        refine ⟨_, rfl, rfl, ?_⟩
        unfold fatalResp
        rw [hapi]
        exact hfat
      next hfat => exact StepOut.noConfusion h

theorem createChannelsGo_trace (api : Api) (g : String) (roles : List RoleConfig)
    (catId : String) :
    ∀ (l : List ChannelConfig) (s : BuildState),
      (∀ s', createChannelsGo api g roles catId l s = .next s' →
        ∃ d, s'.trace = s.trace ++ d ∧ GoodCalls api d)
      ∧ (∀ e s', createChannelsGo api g roles catId l s = .fatal e s' →
        ∃ d c, s'.trace = s.trace ++ (d ++ [c]) ∧ GoodCalls api d
          ∧ isCreationCall c = true ∧ fatalResp api c = true) := by
  intro l
  induction l with
  | nil =>
    intro s
    refine ⟨fun s' h => ?_, fun e s' h => StepOut.noConfusion h⟩
    cases h
    exact ⟨[], by simp, goodCalls_nil api⟩
  | cons ch rest ih =>
    intro s
    constructor
    · intro s' h
      simp only [createChannelsGo] at h
      split at h
      next s1 hcc =>
        obtain ⟨c, hc1, hgood1⟩ := (createChannel_trace api g roles catId ch s).1 s1 hcc
        obtain ⟨d, hd, hg⟩ := (ih s1).1 s' h
        refine ⟨c :: d, ?_, ?_⟩
        · rw [hd, hc1]
          simp
        · intro c' hc' hcre'
          rcases List.mem_cons.mp hc' with rfl | hc2
          · exact hgood1
          · exact hg c' hc2 hcre'
      next e0 s1 hcc => exact StepOut.noConfusion h
    · intro e s' h
      simp only [createChannelsGo] at h
      split at h
      next s1 hcc =>
        obtain ⟨c, hc1, hgood1⟩ := (createChannel_trace api g roles catId ch s).1 s1 hcc
        obtain ⟨d, cf, hd, hg, hcr, hf⟩ := (ih s1).2 e s' h
        refine ⟨c :: d, cf, ?_, ?_, hcr, hf⟩
        · rw [hd, hc1]
          simp
        · intro c' hc' hcre'
          rcases List.mem_cons.mp hc' with rfl | hc2
          · exact hgood1
          · exact hg c' hc2 hcre'
      next e0 s1 hcc =>
        cases h
        obtain ⟨c, hc1, hcr, hf⟩ := (createChannel_trace api g roles catId ch s).2 _ _ hcc
        refine ⟨[], c, ?_, goodCalls_nil api, hcr, hf⟩
        rw [hc1]
        simp

end Cli

namespace Cli

theorem createCategoriesGo_trace (api : Api) (g : String) (roles : List RoleConfig)
    (opts : BuildOptions) :
    ∀ (l : List CategoryConfig) (pos : Nat) (s : BuildState),
      (∀ s', createCategoriesGo api g roles opts l pos s = .next s' →
        ∃ d, s'.trace = s.trace ++ d ∧ GoodCalls api d)
      ∧ (∀ e s', createCategoriesGo api g roles opts l pos s = .fatal e s' →
        ∃ d c, s'.trace = s.trace ++ (d ++ [c]) ∧ GoodCalls api d
          ∧ isCreationCall c = true ∧ fatalResp api c = true) := by
  intro l
  induction l with
  | nil =>
    intro pos s
    refine ⟨fun s' h => ?_, fun e s' h => StepOut.noConfusion h⟩
    cases h
    exact ⟨[], by simp, goodCalls_nil api⟩
  | cons cat rest ih =>
    intro pos s
    constructor
    · intro s' h
      simp only [createCategoriesGo] at h
      split at h
      · exact (ih pos s).1 s' h
      · split at h
        · exact (ih pos s).1 s' h
        · split at h
          next catId hapi =>
            split at h
            next s2 hchan =>
              obtain ⟨d1, hd1, hg1⟩ :=
                (createChannelsGo_trace api g roles catId cat.channels _).1 s2 hchan
              obtain ⟨d2, hd2, hg2⟩ := (ih (pos + 1) s2).1 s' h
              refine ⟨ApiCall.createCategory g cat.name pos :: (d1 ++ d2), ?_, ?_⟩
              · rw [hd2, hd1]
                simp
              · intro c' hc' hcre'
                rcases List.mem_cons.mp hc' with rfl | hc2
                · unfold fatalResp
                  rw [hapi]
                · rcases List.mem_append.mp hc2 with hc3 | hc4
                  · exact hg1 c' hc3 hcre'
                  · exact hg2 c' hc4 hcre'
            next e0 s2 hchan => exact StepOut.noConfusion h
          next e0 hapi =>
            split at h
            next hfat => exact StepOut.noConfusion h
            next hfat =>
              obtain ⟨d, hd, hg⟩ := (ih (pos + 1) _).1 s' h
              refine ⟨ApiCall.createCategory g cat.name pos :: d, ?_, ?_⟩
              · rw [hd]
                simp
              · intro c' hc' hcre'
                rcases List.mem_cons.mp hc' with rfl | hc2
                · unfold fatalResp
                  rw [hapi]
                  simpa using hfat
                · exact hg c' hc2 hcre'
    · intro e s' h
      simp only [createCategoriesGo] at h
      split at h
      · exact (ih pos s).2 e s' h
      · split at h
        · exact (ih pos s).2 e s' h
        · split at h
          next catId hapi =>
            split at h
            next s2 hchan =>
              obtain ⟨d1, hd1, hg1⟩ :=
                (createChannelsGo_trace api g roles catId cat.channels _).1 s2 hchan
              obtain ⟨d2, cf, hd2, hg2, hcr, hf⟩ := (ih (pos + 1) s2).2 e s' h
              refine ⟨ApiCall.createCategory g cat.name pos :: (d1 ++ d2), cf, ?_, ?_, hcr, hf⟩
              · rw [hd2, hd1]
                simp
              · intro c' hc' hcre'
                rcases List.mem_cons.mp hc' with rfl | hc2
                · unfold fatalResp
                  rw [hapi]
                · rcases List.mem_append.mp hc2 with hc3 | hc4
                  · exact hg1 c' hc3 hcre'
                  · exact hg2 c' hc4 hcre'
            next e0 s2 hchan =>
              cases h
              obtain ⟨d1, cf, hd1, hg1, hcr, hf⟩ :=
                (createChannelsGo_trace api g roles catId cat.channels _).2 _ _ hchan
              refine ⟨ApiCall.createCategory g cat.name pos :: d1, cf, ?_, ?_, hcr, hf⟩
              · rw [hd1]
                simp
              · intro c' hc' hcre'
                rcases List.mem_cons.mp hc' with rfl | hc2
                · unfold fatalResp
                  rw [hapi]
                · exact hg1 c' hc2 hcre'
          next e0 hapi =>
            split at h
            next hfat =>
              cases h
              refine ⟨[], ApiCall.createCategory g cat.name pos, by simp,
                goodCalls_nil api, rfl, ?_⟩
              unfold fatalResp
              rw [hapi]
              exact hfat
            next hfat =>
              obtain ⟨d, cf, hd, hg, hcr, hf⟩ := (ih (pos + 1) _).2 e s' h
              refine ⟨ApiCall.createCategory g cat.name pos :: d, cf, ?_, ?_, hcr, hf⟩
              · rw [hd]
                simp
              · intro c' hc' hcre'
                rcases List.mem_cons.mp hc' with rfl | hc2
                · unfold fatalResp
                  rw [hapi]
                  simpa using hfat
                · exact hg c' hc2 hcre'

end Cli

namespace Cli

theorem goodCalls_append {api : Api} {l1 l2 : List ApiCall}
    (h1 : GoodCalls api l1) (h2 : GoodCalls api l2) : GoodCalls api (l1 ++ l2) := by
  intro c hc hcre
  rcases List.mem_append.mp hc with h | h
  · exact h1 c h hcre
  · exact h2 c h hcre

theorem goodCalls_of_noncreation {api : Api} {l : List ApiCall}
    (h : ∀ c ∈ l, isCreationCall c = false) : GoodCalls api l :=
  fun c hc hcre => absurd hcre (by simp [h c hc])

theorem sendEmbedsGo_trace (api : Api) (opts : BuildOptions) (tn : String) :
    ∀ (items : List (String × ChannelConfig)) (s : BuildState),
      ∃ d, (sendEmbedsGo api opts tn items s).trace = s.trace ++ d
        ∧ ∀ c ∈ d, isCreationCall c = false := by
  intro items
  induction items with
  | nil =>
    intro s
    exact ⟨[], by simp [sendEmbedsGo], fun c hc => absurd hc (List.not_mem_nil c)⟩
  | cons item rest ih =>
    intro s
    obtain ⟨cid, ch⟩ := item
    simp only [sendEmbedsGo]
    cases hemb : ch.embed with
    | none => exact ih s
    | some e =>
      dsimp only
      cases hapi : api.create (ApiCall.postEmbed cid (embedBody opts tn e)) with
      | ok v =>
        obtain ⟨d, hd, hall⟩ := ih _
        refine ⟨ApiCall.postEmbed cid (embedBody opts tn e) :: d, ?_, ?_⟩
        · rw [hd]
          simp
        · intro c hc
          rcases List.mem_cons.mp hc with rfl | h2
          · rfl
          · exact hall c h2
      | error er =>
        obtain ⟨d, hd, hall⟩ := ih _
        refine ⟨ApiCall.postEmbed cid (embedBody opts tn e) :: d, ?_, ?_⟩
        · rw [hd]
          simp
        · intro c hc
          rcases List.mem_cons.mp hc with rfl | h2
          · rfl
          · exact hall c h2

theorem sendEmbeds_trace (api : Api) (opts : BuildOptions) (tn : String) (s : BuildState) :
    ∃ d, (sendEmbeds api opts tn s).trace = s.trace ++ d
      ∧ ∀ c ∈ d, isCreationCall c = false :=
  sendEmbedsGo_trace api opts tn s.queue s

theorem applySettings_trace (api : Api) (g : String) (t : ServerTemplate)
    (opts : BuildOptions) (s : BuildState) :
    ∃ d, (applySettings api g t opts s).trace = s.trace ++ d
      ∧ ∀ c ∈ d, isCreationCall c = false := by
  unfold applySettings
  cases t.settings with
  | none => exact ⟨[], by simp, fun c hc => absurd hc (List.not_mem_nil c)⟩
  | some st =>
    dsimp only
    split
    · refine ⟨_, rfl, ?_⟩
      intro c hc
      rw [List.mem_singleton.mp hc]
      rfl
    · refine ⟨_, rfl, ?_⟩
      intro c hc
      rw [List.mem_singleton.mp hc]
      rfl

end Cli

theorem build_cases (t : ServerTemplate) (opts : Cli.BuildOptions) (g : String)
    (api : Cli.Api) :
    Cli.GoodCalls api (Cli.build t opts g api).2
    ∨ ∃ d c e, (Cli.build t opts g api).2 = d ++ [c] ∧ Cli.GoodCalls api d
        ∧ Cli.isCreationCall c = true ∧ Cli.fatalResp api c = true
        ∧ (Cli.build t opts g api).1 = .error (.fatal e) := by
  unfold Cli.build
  dsimp only
  split
  · split
    next e s hroles =>
      right
      unfold Cli.createRoles at hroles
      obtain ⟨d, c, hd, hg, hcr, hf⟩ :=
        (Cli.createRolesGo_trace api g (Cli.sortRoles t.roles) {}).2 e s hroles
      refine ⟨d, c, e, ?_, hg, hcr, hf, rfl⟩
      simpa using hd
    next s1 hroles =>
      unfold Cli.createRoles at hroles
      obtain ⟨d1, hd1, hg1⟩ :=
        (Cli.createRolesGo_trace api g (Cli.sortRoles t.roles) {}).1 s1 hroles
      split
      next e s hcats =>
        right
        unfold Cli.createCategories at hcats
        obtain ⟨d2, c, hd2, hg2, hcr, hf⟩ :=
          (Cli.createCategoriesGo_trace api g t.roles opts t.categories 0 s1).2 e s hcats
        refine ⟨d1 ++ d2, c, e, ?_, Cli.goodCalls_append hg1 hg2, hcr, hf, rfl⟩
        rw [hd2, hd1]
        simp
      next s2 hcats =>
        left
        unfold Cli.createCategories at hcats
        obtain ⟨d2, hd2, hg2⟩ :=
          (Cli.createCategoriesGo_trace api g t.roles opts t.categories 0 s1).1 s2 hcats
        obtain ⟨d3, hd3, h3⟩ := Cli.sendEmbeds_trace api opts t.name s2
        obtain ⟨d4, hd4, h4⟩ :=
          Cli.applySettings_trace api g t opts (Cli.sendEmbeds api opts t.name s2)
        dsimp only
        rw [hd4, hd3, hd2, hd1]
        dsimp only
        simp only [List.nil_append, List.append_assoc]
        exact Cli.goodCalls_append hg1 (Cli.goodCalls_append hg2
          (Cli.goodCalls_append (Cli.goodCalls_of_noncreation h3)
            (Cli.goodCalls_of_noncreation h4)))
  · exact Or.inl (Cli.goodCalls_nil api)

/-- C4 (amended): a 401 or 403 "Missing Access" response to a creation
call (role, category or channel — the Roles and Categories&Channels
phases) aborts the run at once: that call is the last one in the trace
and `build` returns a fatal error, with no compensating deletes (the
builder issues none).  In the Embeds and Settings phases such a
response is recorded as a per-item error and the run continues, so a
fatal response in the trace on a non-creation call implies nothing. -/
theorem fatal_creation_call_aborts (t : ServerTemplate) (opts : Cli.BuildOptions)
    (g : String) (api : Cli.Api) :
    ∀ i (h : i < ((Cli.build t opts g api).2).length),
      Cli.isCreationCall (((Cli.build t opts g api).2)[i]) = true →
      Cli.fatalResp api (((Cli.build t opts g api).2)[i]) = true →
      i + 1 = ((Cli.build t opts g api).2).length
        ∧ ∃ e, (Cli.build t opts g api).1 = .error (.fatal e) := by
  intro i h hcre hfat
  rcases build_cases t opts g api with hgood | ⟨d, c, e, htr, hgood, hc, hf, hres⟩
  · have := hgood _ (List.getElem_mem h) hcre
    rw [hfat] at this
    exact Bool.noConfusion this
  · have hlen : ((Cli.build t opts g api).2).length = d.length + 1 := by
      rw [htr]
      simp
    by_cases hi : i < d.length
    · have hmem : ((Cli.build t opts g api).2)[i] ∈ d := by
        have hget : ((Cli.build t opts g api).2)[i] = d[i] := by
          rw [List.getElem_of_eq htr]
          exact List.getElem_append_left hi
        rw [hget]
        exact List.getElem_mem hi
      have := hgood _ hmem hcre
      rw [hfat] at this
      exact Bool.noConfusion this
    · refine ⟨by omega, e, hres⟩

def sampleRoleOnlyTemplate : ServerTemplate :=
  { id := "t5", name := "T5", description := "",
    categories := [{ name := "General", channels := [] }],
    roles := [{ name := "Member", color := "#00ff00", hoist := false, position := 0 }] }

def roleFatalApi : Cli.Api :=
  { getGuild := .ok (), getBotMember := none,
    create := fun c =>
      match c with
      | .createRole _ _ => .error { message := "401: Unauthorized", status := 401, code := 0 }
      | _ => .ok "x" }

theorem build_roleFatal_eq :
    Cli.build sampleRoleOnlyTemplate sampleOpts "g" roleFatalApi
      = (.error (.fatal { message := "401: Unauthorized", status := 401, code := 0 }),
         [Cli.ApiCall.createRole "g" (Cli.roleBody
            { name := "Member", color := "#00ff00", hoist := false, position := 0 })]) := by
  have hsort : Cli.sortRoles sampleRoleOnlyTemplate.roles
      = [{ name := "Member", color := "#00ff00", hoist := false, position := 0 }] := by
    simp [Cli.sortRoles, sampleRoleOnlyTemplate]
  unfold Cli.build Cli.createRoles
  rw [hsort]
  rfl

theorem fatal_creation_call_aborts_witness :
    0 + 1 = ((Cli.build sampleRoleOnlyTemplate sampleOpts "g" roleFatalApi).2).length
    ∧ ∃ e, (Cli.build sampleRoleOnlyTemplate sampleOpts "g" roleFatalApi).1
        = .error (.fatal e) := by
  have htr : (Cli.build sampleRoleOnlyTemplate sampleOpts "g" roleFatalApi).2
      = [Cli.ApiCall.createRole "g" (Cli.roleBody
          { name := "Member", color := "#00ff00", hoist := false, position := 0 })] :=
    congrArg Prod.snd build_roleFatal_eq
  have h : 0 < ((Cli.build sampleRoleOnlyTemplate sampleOpts "g" roleFatalApi).2).length := by
    rw [htr]
    decide
  exact fatal_creation_call_aborts sampleRoleOnlyTemplate sampleOpts "g" roleFatalApi 0 h
    (by rw [List.getElem_of_eq htr]; rfl) (by rw [List.getElem_of_eq htr]; rfl)

def adminRole : RoleConfig :=
  { name := "Admin", color := "#ff0000", hoist := true, position := 12 }

def welcomeChannel : ChannelConfig :=
  { name := "welcome", type := .text, embed := some { title := "W" } }

def rulesChannel : ChannelConfig :=
  { name := "rules", type := .text, embed := some { title := "R" } }

def embedTemplate : ServerTemplate :=
  { id := "t6", name := "T6", description := "",
    categories := [{ name := "General", channels := [welcomeChannel, rulesChannel] }],
    roles := [adminRole] }

def bothOpts : Cli.BuildOptions := { includeStaff := true, includeEngagement := true }

/-- Oracle for the refutation run: every creation call succeeds (a
channel's id is its name), the embed post into "welcome" fails with an
authentication error (401), the embed post into "rules" succeeds. -/
def embedFailApi : Cli.Api :=
  { getGuild := .ok (), getBotMember := none,
    create := fun c =>
      match c with
      | .postEmbed cid _ =>
        if cid == "welcome" then
          .error { message := "401: Unauthorized", status := 401, code := 0 }
        else .ok "m"
      | .createChannel _ b => .ok b.name
      | _ => .ok "x" }

theorem build_embedFatal_eq :
    Cli.build embedTemplate bothOpts "g" embedFailApi
      = (.ok { categoriesCreated := 1, channelsCreated := 2, rolesCreated := 1,
               embedsSent := 1,
               errors := ["Embed in \"welcome\": 401: Unauthorized"] },
         [Cli.ApiCall.createRole "g" (Cli.roleBody adminRole),
          Cli.ApiCall.createCategory "g" "General" 0,
          Cli.ApiCall.createChannel "g"
            (Cli.channelBody embedTemplate.roles [("Admin", "x")] "g" "x" welcomeChannel),
          Cli.ApiCall.createChannel "g"
            (Cli.channelBody embedTemplate.roles [("Admin", "x")] "g" "x" rulesChannel),
          Cli.ApiCall.postEmbed "welcome" (Cli.embedBody bothOpts "T6" { title := "W" }),
          Cli.ApiCall.postEmbed "rules" (Cli.embedBody bothOpts "T6" { title := "R" })]) := by
  have hsort : Cli.sortRoles embedTemplate.roles = [adminRole] := by
    simp [Cli.sortRoles, embedTemplate]
  unfold Cli.build Cli.createRoles
  rw [hsort]
  rfl

/-- C4 counterexample: in this run a call receives a fatal-class (401)
response during the Embeds phase, yet the trace continues past it (the
suffix starting at the first fatal-response call has two calls) and the
run completes with an ordinary `BuildResult` — the claimed
abort-on-any-phase behaviour is false. -/
theorem fatal_any_phase_counterexample :
    Cli.resultOk (Cli.build embedTemplate bothOpts "g" embedFailApi).1 = true
    ∧ Cli.fatalResp embedFailApi
        (Cli.ApiCall.postEmbed "welcome" (Cli.embedBody bothOpts "T6" { title := "W" })) = true
    ∧ ((Cli.build embedTemplate bothOpts "g" embedFailApi).2.dropWhile
        (fun c => !Cli.fatalResp embedFailApi c)).length = 2 := by
  have htr := congrArg Prod.snd build_embedFatal_eq
  have hres := congrArg Prod.fst build_embedFatal_eq
  refine ⟨?_, rfl, ?_⟩
  · rw [hres]
    rfl
  · rw [htr]
    rfl
